import Mathlib

/-!
# Statuz: monitor lifecycle, HTTP check executor and scheduler registry

A shallow embedding of `monitors/http.go`, `monitors/montior.go` and
`scheduler/scheduler.go`, followed by theorems about retry bounds, latency
classification, status acceptance, cancellation, the start/stop state
machine, the registry and the per-monitor loop.

Conventions of the embedding.

* Go `int`, `time.Duration` and clock readings are `Int`; `int` is taken as
  64 bits wide and the one arithmetic step that could overflow (`attempt++`)
  wraps explicitly.
* A `context.Context` is the list of cancellation scopes it is subject to
  (innermost first); the scopes cancelled so far live in a `CtxStore`.
* A method with a pointer receiver takes the receiver value and returns the
  updated one; every method that locks `mu` is one atomic step.
* What the network does in one probe attempt, and which scopes other tasks
  have cancelled by then, are read from a `World`.
-/

namespace Statuz

/-! # Part I: the embedding -/

/-! ## Machine integers, durations, clock -/

/-- Wrap-around of a 64-bit signed integer. -/
def wrapInt64 (x : Int) : Int :=
  (x + 9223372036854775808) % 18446744073709551616 - 9223372036854775808

/-- Range of a 64-bit signed integer. -/
def inInt64 (x : Int) : Prop :=
  -9223372036854775808 ≤ x ∧ x ≤ 9223372036854775807

instance (x : Int) : Decidable (inInt64 x) := by
  unfold inInt64; infer_instance

/-- A `time.Duration`, in nanoseconds. -/
abbrev Duration := Int

/-- A clock reading (`time.Time`), in nanoseconds; `0` is the zero value. -/
abbrev Time := Int

/-- The constant `time.Millisecond`. -/
def Millisecond : Duration := 1000000

/-- The constant `time.Second`. -/
def Second : Duration := 1000000000

/-- The constant `DEGRADED_DEFAULT_THRESHOLD = 2000 * time.Millisecond`. -/
def DEGRADED_DEFAULT_THRESHOLD : Duration := 2000 * Millisecond

/-- The method `Time.Sub` of the standard library: the difference, saturated
to the range of a `Duration`. -/
def Time.Sub (t u : Time) : Duration :=
  if t - u > 9223372036854775807 then 9223372036854775807
  else if t - u < -9223372036854775808 then -9223372036854775808
  else t - u

/-- The function `strings.ToUpper` of the standard library, on ASCII letters
only: the library also upper-cases letters outside ASCII, which this model
leaves as they are. The two agree on every ASCII string, HTTP methods among
them, and no proof below looks inside this definition. -/
def strings_ToUpper (s : String) : String := ⟨s.data.map Char.toUpper⟩

/-! ## Cancellation scopes (`context`) -/

/-- The name of one cancellation scope, as handed out by `WithCancel`. -/
abbrev ScopeId := Nat

/-- A `context.Context`: the cancellation scopes whose firing completes it,
its own first, then those of its ancestors. -/
abbrev Context := List ScopeId

/-- The calls of `context.WithCancel` and of cancel functions so far. -/
structure CtxStore where
  cancelled : List ScopeId
  next : ScopeId
deriving DecidableEq, Repr

/-- The context `context.Background()`: never cancelled. -/
def Background : Context := []

/-- Whether `<-c.Done()` is ready when the scopes in `cancelled` have fired. -/
def Context.Done (c : Context) (cancelled : List ScopeId) : Bool :=
  c.any (fun id => cancelled.contains id)

/-- The call `context.WithCancel(parent)`: a child scope and its cancel handle. -/
def WithCancel (parent : Context) (s : CtxStore) : Context × ScopeId × CtxStore :=
  (s.next :: parent, s.next, { s with next := s.next + 1 })

/-- Calling a cancel function; a second call does nothing. -/
def CtxStore.fire (s : CtxStore) (id : ScopeId) : CtxStore :=
  if s.cancelled.contains id then s else { s with cancelled := id :: s.cancelled }

/-- Every scope that has fired was handed out by `WithCancel`. -/
def CtxStore.wf (s : CtxStore) : Prop := ∀ id ∈ s.cancelled, id < s.next

instance (s : CtxStore) : Decidable s.wf := by
  unfold CtxStore.wf; infer_instance

/-! ## `monitors/montior.go` -/

/-- The type `Status` with its five constants. -/
inductive Status where
  | StatusUp
  | StatusDown
  | StatusDegraded
  | StatusUnknown
  | StatusWarning
deriving DecidableEq, Repr

/-- The struct `Result`. The field `Details` is never written and is left out. -/
structure Result where
  MonitorID : String
  «Type» : String
  Status : Status
  StartTime : Time
  EndTime : Time
  Duration : Duration
  Message : String
  Error : String
  Success : Bool
  CheckedAt : Time
deriving DecidableEq, Repr

/-! ## `monitors/http.go` -/

/-- The network a transport dials: `tcp4`, `tcp6`, or whatever the caller asks. -/
inductive DialNetwork where
  | tcp4
  | tcp6
  | both
deriving DecidableEq, Repr

/-- The `*http.Client` built by `initHTTPClient`. -/
structure HTTPClient where
  network : DialNetwork
  Timeout : Duration
deriving DecidableEq, Repr

/-- The struct `HTTPMonitor`. The mutex `mu` is left out: every method that
holds it is one atomic step. A nil `ctx`, `cancel` or `client` is `none`; a
cancel function is the scope it cancels. -/
structure HTTPMonitor where
  ID : String
  URL : String
  HBInterval : Duration
  Retries : Int
  RetryInterval : Duration
  ReqTimeout : Duration
  MaxRedirects : Int
  AcceptedStatusCodes : List Int
  IPFamily : String
  HTTPMethod : String
  DegradedThreshold : Duration
  lastHB : Time
  running : Bool
  ctx : Option Context
  cancel : Option ScopeId
  client : Option HTTPClient
deriving DecidableEq, Repr

/-- A monitor as a composite literal builds it: the unexported fields are zero. -/
def HTTPMonitor.fresh (m : HTTPMonitor) : Prop :=
  m.lastHB = 0 ∧ m.running = false ∧ m.ctx = none ∧ m.cancel = none ∧ m.client = none

/-- The unexported fields are only written by `Start`, `Stop` and `Check`:
a set cancel handle is the handle of the stored scope, which came with a client. -/
def HTTPMonitor.wf (m : HTTPMonitor) : Prop :=
  match m.cancel with
  | none => True
  | some c => m.ctx.bind List.head? = some c ∧ m.client.isSome = true

instance (m : HTTPMonitor) : Decidable m.wf := by
  unfold HTTPMonitor.wf; split <;> infer_instance

/-- The method `initHTTPClient`. -/
def HTTPMonitor.initHTTPClient (m : HTTPMonitor) : HTTPMonitor :=
  let m1 := { m with HTTPMethod := strings_ToUpper m.HTTPMethod }
  let m2 := if m1.HTTPMethod = "" then { m1 with HTTPMethod := "GET" } else m1
  let network :=
    if m2.IPFamily = "v4" then DialNetwork.tcp4
    else if m2.IPFamily = "v6" then DialNetwork.tcp6
    else DialNetwork.both
  let timeout := if m2.ReqTimeout ≤ 0 then 5 * Second else m2.ReqTimeout
  { m2 with client := some { network := network, Timeout := timeout } }

/-- The method `Start`. -/
def HTTPMonitor.Start (m : HTTPMonitor) (parent : Context) (s : CtxStore) :
    HTTPMonitor × CtxStore :=
  if m.cancel ≠ none then (m, s)
  else
    let (ctx, cancel, s1) := WithCancel parent s
    (({ m with ctx := some ctx, cancel := some cancel }).initHTTPClient, s1)

/-- The method `Stop`. -/
def HTTPMonitor.Stop (m : HTTPMonitor) (s : CtxStore) : HTTPMonitor × CtxStore :=
  match m.cancel with
  | some c => ({ m with cancel := none }, s.fire c)
  | none => (m, s)

/-- The method `GetContext`. -/
def HTTPMonitor.GetContext (m : HTTPMonitor) : Option Context := m.ctx

/-- The method `GetHBInterval`. -/
def HTTPMonitor.GetHBInterval (m : HTTPMonitor) : Duration := m.HBInterval

/-- The method `GetLastHB`. -/
def HTTPMonitor.GetLastHB (m : HTTPMonitor) : Time := m.lastHB

/-- The method `SetLastHB`. -/
def HTTPMonitor.SetLastHB (m : HTTPMonitor) (hbTime : Time) : HTTPMonitor :=
  { m with lastHB := hbTime }

/-- The method `IsRunning`. -/
def HTTPMonitor.IsRunning (m : HTTPMonitor) : Bool := m.running

/-- The method `SetRunning`. -/
def HTTPMonitor.SetRunning (m : HTTPMonitor) (b : Bool) : HTTPMonitor :=
  { m with running := b }

/-- The method `GetID`. -/
def HTTPMonitor.GetID (m : HTTPMonitor) : String := m.ID

/-- The `for ... range accepted` loop of `isStatusAccepted` and the `return false` after it. -/
def isStatusAccepted.scan (status : Int) : List Int → Bool
  | [] => false
  | acceptedStatus :: rest =>
      if status = acceptedStatus then true else isStatusAccepted.scan status rest

/-- The function `isStatusAccepted`. -/
def isStatusAccepted (status : Int) (accepted : List Int) : Bool :=
  if accepted.length = 0 then decide (status ≥ 200) && decide (status < 400)
  else isStatusAccepted.scan status accepted

/-- The struct `CheckResult`. -/
structure CheckResult where
  isUp : Bool
  start : Time
  «end» : Time
  duration : Duration
  code : Int
deriving DecidableEq, Repr

/-- What the outside world does in one call of `performCheck`. -/
inductive Attempt where
  /-- The request cannot be built (`http.NewRequestWithContext` fails). -/
  | requestError (err : String)
  /-- The transport fails (`client.Do` returns an error); `start` is the clock before the call. -/
  | transportError (start : Time) (err : String)
  /-- A response arrives; `start` and `stop` are the clock before and after the call. -/
  | response (start stop : Time) (code : Int)
deriving DecidableEq, Repr

/-- The outcome of `performCheck`: its two return values (`err` is `none` for
`nil`), or the nil-pointer panic of calling `Do` on a monitor without client. -/
inductive Probe where
  | returned (checkResult : CheckResult) (err : Option String)
  | nilClient
deriving DecidableEq, Repr

/-- The method `performCheck`. -/
def HTTPMonitor.performCheck (m : HTTPMonitor) (a : Attempt) : Probe :=
  match a with
  | .requestError e =>
      .returned { isUp := false, start := 0, «end» := 0, duration := 0, code := 0 }
        (some ("failed to create request: " ++ e))
  | .transportError start e =>
      match m.client with
      | none => .nilClient
      | some _ =>
        .returned { isUp := false, start := start, «end» := start, duration := 0, code := 0 }
          (some ("HTTP request failed: " ++ e))
  | .response start stop code =>
      match m.client with
      | none => .nilClient
      | some _ =>
        let duration := Time.Sub stop start
        if !isStatusAccepted code m.AcceptedStatusCodes then
          .returned { isUp := false, start := start, «end» := stop, duration := duration, code := code }
            (some ("unaccepted status code: " ++ toString code))
        else
          .returned { isUp := true, start := start, «end» := stop, duration := duration, code := code }
            none

/-- Everything `Check` reads from outside the monitor. -/
structure World where
  /-- Scopes that other tasks have cancelled by the time the loop of `Check`
  polls `m.ctx.Done()` for the `i`-th time (counting from 0), on top of those
  already cancelled when `Check` was called. -/
  cancelledBy : Nat → List ScopeId
  /-- What the network does in the `i`-th call of `performCheck` (counting from 0). -/
  probe : Nat → Attempt
  /-- How `fmt` prints a `time.Duration` under `%v`. -/
  fmtDuration : Duration → String

/-- The `return` statement through which `Check` left. -/
inductive Exit where
  | cancelled
  | success
  | finalFailure
  | fallthrough
deriving DecidableEq, Repr

/-- One completed call of `Check`: the result, the receiver afterwards, and a
record of what the call did. -/
structure CheckRun where
  result : Result
  monitor : HTTPMonitor
  attempts : Nat
  slept : List Duration
  exit : Exit
deriving DecidableEq, Repr

/-- How a call of `Check` ends: it returns, it panics on the nil client in the
attempt with the given index, or the model runs out of fuel. -/
inductive Outcome where
  | returned (run : CheckRun)
  | panicked (attempts : Nat)
  | outOfFuel
deriving DecidableEq, Repr

/-- The scope that `m.ctx.Done()` polls; a nil `m.ctx` stands for the
background context, which `Check` puts in its place. -/
def HTTPMonitor.scope (m : HTTPMonitor) : Context := m.ctx.getD Background

/-- The `for` loop of `Check` and the statement after it. `i` counts the
iterations begun so far, `slept` lists the `time.Sleep` calls (latest first). -/
def HTTPMonitor.checkLoop (w : World) (s : CtxStore) (retries : Int) :
    Nat → HTTPMonitor → Int → Nat → List Duration → Outcome
  | 0, _, _, _, _ => .outOfFuel
  | fuel + 1, m, attempt, i, slept =>
    if attempt ≤ retries then
      if m.scope.Done (s.cancelled ++ w.cancelledBy i) then
        .returned {
          result := { MonitorID := m.ID, «Type» := "http/https", Status := .StatusDown,
                      StartTime := 0, EndTime := 0, Duration := 0, Message := "",
                      Error := "monitor cancelled", Success := false, CheckedAt := 0 },
          monitor := m, attempts := i, slept := slept, exit := .cancelled }
      else
        match m.performCheck (w.probe i) with
        | .nilClient => .panicked i
        | .returned checkResult none =>
            let res : Result :=
              { MonitorID := m.ID, «Type» := "http/https", Status := .StatusUp,
                StartTime := checkResult.start, EndTime := checkResult.end,
                Duration := checkResult.duration, Message := "", Error := "",
                Success := checkResult.isUp, CheckedAt := checkResult.start }
            let m1 := if m.DegradedThreshold ≤ 0
              then { m with DegradedThreshold := DEGRADED_DEFAULT_THRESHOLD } else m
            let res1 := if checkResult.duration ≥ m1.DegradedThreshold
              then { res with
                Status := .StatusDegraded,
                Message := "Response slow: " ++ w.fmtDuration checkResult.duration ++ " > "
                  ++ w.fmtDuration m1.DegradedThreshold }
              else res
            .returned { result := res1, monitor := m1, attempts := i + 1, slept := slept,
                        exit := .success }
        | .returned _ (some err) =>
            if attempt < retries then
              checkLoop w s retries fuel m (wrapInt64 (attempt + 1)) (i + 1)
                (m.RetryInterval :: slept)
            else
              .returned {
                result := { MonitorID := m.ID, «Type» := "http/https", Status := .StatusDown,
                            StartTime := 0, EndTime := 0, Duration := 0, Message := "",
                            Error := "check failed after " ++ toString retries ++ " retries: " ++ err,
                            Success := false, CheckedAt := 0 },
                monitor := m, attempts := i + 1, slept := slept, exit := .finalFailure }
    else
      .returned {
        result := { MonitorID := m.ID, «Type» := "http/https", Status := .StatusDown,
                    StartTime := 0, EndTime := 0, Duration := 0, Message := "",
                    Error := "unexpected error", Success := false, CheckedAt := 0 },
        monitor := m, attempts := i, slept := slept, exit := .fallthrough }

/-- The method `Check`. The argument `ctx` of the Go method is never read and
is left out. `fuel` bounds the number of loop iterations the model runs. -/
def HTTPMonitor.Check (m : HTTPMonitor) (s : CtxStore) (w : World) (fuel : Nat) : Outcome :=
  let m0 := if m.ctx = none then { m with ctx := some Background } else m
  let retries := max 0 m0.Retries
  HTTPMonitor.checkLoop w s retries fuel m0 0 0 []

/-! ## `scheduler/scheduler.go`

Monitors are shared by pointer: the registry maps an ID to an address, and the
monitors themselves live in a heap. A Go map is kept as an association list
with distinct keys; ranging over it follows the list, and since the statements
below hold for every such list they hold for every iteration order. -/

/-- The address of a monitor. -/
abbrev Ptr := Nat

/-- A call the scheduler makes on a monitor's lifecycle. -/
inductive MonitorCall where
  | Start (p : Ptr)
  | Stop (p : Ptr)
deriving DecidableEq, Repr

/-- The struct `Scheduler`. The channel is the list of results waiting in its
buffer (capacity 100); the lock `mu` is left out: every method that holds it
is one atomic step. -/
structure Scheduler where
  ctx : Context
  ResultChannel : List Result
  /-- The lines written through the logger so far: level and text. -/
  logger : List (String × String)
  monitors : List (String × Ptr)
deriving DecidableEq, Repr

/-- The scheduler together with what it shares with the rest of the program. -/
structure System where
  sched : Scheduler
  heap : Ptr → HTTPMonitor
  store : CtxStore
  /-- The `go s.runMonitorLoop(m)` statements executed so far. -/
  loops : List Ptr
  /-- The `m.Start` and `m.Stop` calls the scheduler has made so far. -/
  calls : List MonitorCall

/-- The assignment `m[key] = value` on a map. -/
def mapInsert (key : String) (value : Ptr) (m : List (String × Ptr)) : List (String × Ptr) :=
  if (m.lookup key).isSome then m.map (fun e => if e.1 = key then (key, value) else e)
  else m ++ [(key, value)]

/-- The statement `delete(m, key)` on a map. -/
def mapDelete (key : String) (m : List (String × Ptr)) : List (String × Ptr) :=
  m.filter (fun e => e.1 ≠ key)

/-- The function `NewScheduler`. -/
def NewScheduler (ctx : Context) (ms : List Ptr) (heap : Ptr → HTTPMonitor) : Scheduler :=
  { ctx := ctx, ResultChannel := [], logger := [],
    monitors := ms.foldl (fun m mon => mapInsert (heap mon).GetID mon m) [] }

/-- One line through the logger. -/
def System.log (st : System) (level text : String) : System :=
  { st with sched := { st.sched with logger := st.sched.logger ++ [(level, text)] } }

/-- The call `m.Start(s.ctx)` on the monitor at `p`. -/
def System.callStart (st : System) (p : Ptr) : System :=
  { st with
    heap := Function.update st.heap p ((st.heap p).Start st.sched.ctx st.store).1,
    store := ((st.heap p).Start st.sched.ctx st.store).2,
    calls := st.calls ++ [.Start p] }

/-- The call `m.Stop()` on the monitor at `p`. -/
def System.callStop (st : System) (p : Ptr) : System :=
  { st with
    heap := Function.update st.heap p ((st.heap p).Stop st.store).1,
    store := ((st.heap p).Stop st.store).2,
    calls := st.calls ++ [.Stop p] }

/-- The statement `go s.runMonitorLoop(m)`. -/
def System.launchLoop (st : System) (p : Ptr) : System :=
  { st with loops := st.loops ++ [p] }

/-- The method `AddMonitor`. -/
def System.AddMonitor (st : System) (m : Ptr) : System :=
  if (st.sched.monitors.lookup (st.heap m).GetID).isSome then
    st.log "warn" ("[Scheduler] Monitor " ++ (st.heap m).GetID ++ " already exists")
  else
    let st1 := st.callStart m
    let st2 := { st1 with
      sched := { st1.sched with
        monitors := mapInsert (st1.heap m).GetID m st1.sched.monitors } }
    let st3 := st2.launchLoop m
    st3.log "info" ("[Scheduler] Added and started monitor " ++ (st3.heap m).GetID)

/-- The method `StopMonitor`. -/
def System.StopMonitor (st : System) (monitorID : String) : System :=
  match st.sched.monitors.lookup monitorID with
  | none => st.log "warn" ("[Scheduler] No monitor found with ID " ++ monitorID)
  | some m =>
    let st1 := st.callStop m
    let st2 := { st1 with
      sched := { st1.sched with monitors := mapDelete monitorID st1.sched.monitors } }
    st2.log "info" ("[Scheduler] Stopped and removed monitor " ++ monitorID)

/-- The method `ListMonitors`. -/
def System.ListMonitors (st : System) : List Ptr :=
  st.sched.monitors.map (fun e => e.2)

/-- The first `range` loop of `Run`, over the entries still to visit. -/
def System.startAll : List (String × Ptr) → System → System
  | [], st => st
  | (_, m) :: rest, st => System.startAll rest ((st.callStart m).launchLoop m)

/-- The second `range` loop of `Run`, over the entries still to visit; an entry
deleted before the loop reaches it is not produced. -/
def System.stopAll : List (String × Ptr) → System → System
  | [], st => st
  | (id, m) :: rest, st =>
    if (st.sched.monitors.lookup id).isSome then
      let st1 := st.callStop m
      System.stopAll rest
        { st1 with sched := { st1.sched with monitors := mapDelete id st1.sched.monitors } }
    else System.stopAll rest st

/-- The part of `Run` before it blocks on `<-s.ctx.Done()`. -/
def System.runStartup (st : System) : System :=
  let st1 := st.log "info" "[Scheduler] Running dynamic scheduler..."
  System.startAll st1.sched.monitors st1

/-- The part of `Run` after `<-s.ctx.Done()`. -/
def System.runShutdown (st : System) : System :=
  let st1 := st.log "warn" "[Scheduler] Context canceled, stopping all monitors..."
  let st2 := System.stopAll st1.sched.monitors st1
  st2.log "info" "Scheduler stopped cleanly."

/-- The method `Run`. `during` is what the other tasks do to the system while
`Run` is blocked on `<-s.ctx.Done()`; `Run` returns only if the root scope is
cancelled by then, and `none` stands for a `Run` that stays blocked. -/
def System.Run (st : System) (during : System → System) : Option System :=
  let st1 := st.runStartup
  let st2 := during st1
  if st2.sched.ctx.Done st2.store.cancelled then some st2.runShutdown else none

/-- Writing the monitor at `p`. -/
def System.setHeap (st : System) (p : Ptr) (m : HTTPMonitor) : System :=
  { st with heap := Function.update st.heap p m }

/-- The method `performCheck` of the scheduler, run from start to end on the
monitor at `m`. The deferred `SetRunning(false)` also runs when `Check`
panics; a send on a full channel blocks, and the task then stays before it. -/
def System.performCheck (st : System) (m : Ptr) (w : World) (fuel : Nat) : System :=
  let st1 := st.setHeap m ((st.heap m).SetRunning true)
  match (st1.heap m).Check st1.store w fuel with
  | .returned run =>
    let st2 := st1.setHeap m (run.monitor.SetLastHB run.result.EndTime)
    if st2.sched.ResultChannel.length < 100 then
      let st3 := { st2 with
        sched := { st2.sched with ResultChannel := st2.sched.ResultChannel ++ [run.result] } }
      st3.setHeap m ((st3.heap m).SetRunning false)
    else st2
  | .panicked _ => st1.setHeap m ((st1.heap m).SetRunning false)
  | .outOfFuel => st1

/-- What another task does to the system while `Run` is blocked. -/
inductive SysEvent where
  /-- A call of `AddMonitor`. -/
  | addMonitor (m : Ptr)
  /-- A call of `StopMonitor`. -/
  | stopMonitor (monitorID : String)
  /-- The owner of a scope (of the root scope, say) calls its cancel function. -/
  | cancel (id : ScopeId)
  /-- A loop task or check task runs `performCheck` on a monitor. -/
  | performCheck (m : Ptr) (w : World) (fuel : Nat)
  /-- The consumer receives from the result channel. -/
  | receive

/-- One event. -/
def System.apply (st : System) : SysEvent → System
  | .addMonitor m => st.AddMonitor m
  | .stopMonitor monitorID => st.StopMonitor monitorID
  | .cancel id => { st with store := st.store.fire id }
  | .performCheck m w fuel => st.performCheck m w fuel
  | .receive => { st with sched := { st.sched with ResultChannel := st.sched.ResultChannel.tail } }

/-- A sequence of events, first event first. -/
def System.applyAll : List SysEvent → System → System
  | [], st => st
  | e :: rest, st => System.applyAll rest (st.apply e)

/-! ## Vocabulary for the statements about `Check` -/

/-- The probe of iteration `i` comes back with an error. -/
def HTTPMonitor.failsAt (m : HTTPMonitor) (w : World) (i : Nat) : Prop :=
  ∃ checkResult err, m.performCheck (w.probe i) = .returned checkResult (some err)

/-- The receiver after the first statement of `Check`. -/
def HTTPMonitor.withScope (m : HTTPMonitor) : HTTPMonitor :=
  if m.ctx = none then { m with ctx := some Background } else m

/-- The result returned when the poll finds the scope cancelled. -/
def cancelledResult (m : HTTPMonitor) : Result :=
  { MonitorID := m.ID, «Type» := "http/https", Status := .StatusDown,
    StartTime := 0, EndTime := 0, Duration := 0, Message := "",
    Error := "monitor cancelled", Success := false, CheckedAt := 0 }

/-- The outcome left the loop from inside it, after at most `bound` attempts. -/
def Outcome.withinLoop (o : Outcome) (bound : Nat) : Prop :=
  match o with
  | .returned run =>
      run.exit ≠ .fallthrough ∧ run.result.Error ≠ "unexpected error" ∧ run.attempts ≤ bound
  | .panicked n => n < bound
  | .outOfFuel => False

/-! ## Concrete monitors and worlds -/

/-- The third monitor of `cmd/statuz/main.go`, as the composite literal builds it. -/
def monitor3 : HTTPMonitor :=
  { ID := "test-monitor3", URL := "https://www.google.com/", HBInterval := 10 * Second,
    Retries := 3, RetryInterval := 2 * Second, ReqTimeout := 5 * Second, MaxRedirects := 0,
    AcceptedStatusCodes := [200], IPFamily := "auto", HTTPMethod := "GET",
    DegradedThreshold := 10 * Millisecond,
    lastHB := 0, running := false, ctx := none, cancel := none, client := none }

/-- No scope cancelled yet, none handed out. -/
def emptyStore : CtxStore := { cancelled := [], next := 0 }

/-- The monitor `monitor3` after `Start(context.Background())`. -/
def monitor3Started : HTTPMonitor := (monitor3.Start Background emptyStore).1

/-- The store after that `Start`. -/
def storeStarted : CtxStore := (monitor3.Start Background emptyStore).2

/-- Nobody cancels anything; every probe is answered with status 500 after 5 ms. -/
def worldAlways500 : World :=
  { cancelledBy := fun _ => [],
    probe := fun _ => .response 0 (5 * Millisecond) 500,
    fmtDuration := fun d => toString d ++ "ns" }

/-- Two answers with status 500, then status 200 after 30 ms. -/
def worldSlowThird : World :=
  { cancelledBy := fun _ => [],
    probe := fun i => if i < 2 then .response 0 (5 * Millisecond) 500
                      else .response 0 (30 * Millisecond) 200,
    fmtDuration := fun d => toString d ++ "ns" }

/-- Two answers with status 500; the monitor is stopped before the third poll. -/
def worldStoppedAtThird : World :=
  { cancelledBy := fun i => if i < 2 then [] else [0],
    probe := fun _ => .response 0 (5 * Millisecond) 500,
    fmtDuration := fun d => toString d ++ "ns" }

/-- The run made no more than `n` attempts and reported the cancellation. -/
def CheckRun.cancelledAfter (run : CheckRun) (n : Nat) : Prop :=
  run.attempts = n ∧ run.exit = .cancelled ∧ run.result.Status = .StatusDown
  ∧ run.result.Success = false ∧ run.result.Error = "monitor cancelled"

/-- A store in which scope 0, the root, has been cancelled. -/
def storeRootCancelled : CtxStore := { cancelled := [0], next := 1 }

/-! ## Sequences of `Start` and `Stop` calls -/

/-- A call of the lifecycle part of the monitor contract. -/
inductive LifecycleCall where
  | start (parent : Context)
  | stop
deriving DecidableEq, Repr

/-- One lifecycle call on a monitor. -/
def LifecycleCall.apply (c : LifecycleCall) (ms : HTTPMonitor × CtxStore) :
    HTTPMonitor × CtxStore :=
  match c with
  | .start parent => ms.1.Start parent ms.2
  | .stop => ms.1.Stop ms.2

/-- A sequence of lifecycle calls, first call first. -/
def applyCalls : List LifecycleCall → HTTPMonitor × CtxStore → HTTPMonitor × CtxStore
  | [], ms => ms
  | c :: rest, ms => applyCalls rest (c.apply ms)

/-- What `Start` and `Stop` maintain between a monitor and the scopes handed
out so far: the handle belongs to the stored scope, and it was handed out. -/
def lifecycleInv (ms : HTTPMonitor × CtxStore) : Prop :=
  ms.1.wf ∧ ms.2.wf ∧ ∀ c ∈ ms.1.cancel, c < ms.2.next

instance (ms : HTTPMonitor × CtxStore) : Decidable (lifecycleInv ms) := by
  unfold lifecycleInv; infer_instance

/-! ## The definition fields of a monitor -/

/-- The definition fields other than `HTTPMethod` and `DegradedThreshold`. -/
structure CoreDefinition where
  ID : String
  URL : String
  HBInterval : Duration
  Retries : Int
  RetryInterval : Duration
  ReqTimeout : Duration
  MaxRedirects : Int
  AcceptedStatusCodes : List Int
  IPFamily : String
deriving DecidableEq, Repr

/-- All eleven definition fields of a monitor. -/
structure MonitorDefinition where
  core : CoreDefinition
  HTTPMethod : String
  DegradedThreshold : Duration
deriving DecidableEq, Repr

/-- The nine definition fields of `m` that no operation writes. -/
def HTTPMonitor.coreDefinition (m : HTTPMonitor) : CoreDefinition :=
  { ID := m.ID, URL := m.URL, HBInterval := m.HBInterval, Retries := m.Retries,
    RetryInterval := m.RetryInterval, ReqTimeout := m.ReqTimeout,
    MaxRedirects := m.MaxRedirects, AcceptedStatusCodes := m.AcceptedStatusCodes,
    IPFamily := m.IPFamily }

/-- The eleven definition fields of `m`. -/
def HTTPMonitor.definition (m : HTTPMonitor) : MonitorDefinition :=
  { core := m.coreDefinition, HTTPMethod := m.HTTPMethod,
    DegradedThreshold := m.DegradedThreshold }

/-- The first monitor of `cmd/statuz/main.go`: no degraded threshold is given. -/
def monitor1 : HTTPMonitor :=
  { ID := "test-monitor", URL := "https://www.speedtest.net/", HBInterval := 10 * Second,
    Retries := 3, RetryInterval := 2 * Second, ReqTimeout := 5 * Second, MaxRedirects := 0,
    AcceptedStatusCodes := [200], IPFamily := "auto", HTTPMethod := "GET",
    DegradedThreshold := 0,
    lastHB := 0, running := false, ctx := none, cancel := none, client := none }

/-- The same monitor with the method left unset. -/
def monitor1NoMethod : HTTPMonitor := { monitor1 with HTTPMethod := "" }

/-- The monitor `monitor1` after `Start(context.Background())`. -/
def monitor1Started : HTTPMonitor := (monitor1.Start Background emptyStore).1

/-- Nobody cancels anything; every probe is answered with status 200 after 5 ms. -/
def worldAlways200 : World :=
  { cancelledBy := fun _ => [],
    probe := fun _ => .response 0 (5 * Millisecond) 200,
    fmtDuration := fun d => toString d ++ "ns" }

/-! ## Vocabulary for the statements about the scheduler -/

/-- A registry holding `monitor1` (started, at address 0) and `monitor3`
(started, at address 1) under the root scope 0; address 2 holds a second
monitor with the ID of `monitor1`, not registered. -/
def system2 : System :=
  { sched := { ctx := [0], ResultChannel := [], logger := [],
               monitors := [("test-monitor", 0), ("test-monitor3", 1)] },
    heap := fun p =>
      if p = 0 then (monitor1.Start [0] { cancelled := [], next := 1 }).1
      else if p = 1 then (monitor3.Start [0] { cancelled := [], next := 2 }).1
      else monitor1,
    store := { cancelled := [], next := 3 },
    loops := [0, 1],
    calls := [.Start 0, .Start 1] }

/-- A scheduler with nothing registered; `monitor1` sits at every address. -/
def systemEmpty : System :=
  { sched := { ctx := [0], ResultChannel := [], logger := [], monitors := [] },
    heap := fun _ => monitor1,
    store := { cancelled := [], next := 1 },
    loops := [],
    calls := [] }

/-- The monitor at `p` has been started at some point: its handle is set and
belongs to its scope, or its scope is already cancelled. -/
def System.startedAt (st : System) (p : Ptr) : Prop :=
  (st.heap p).wf ∧ ((st.heap p).cancel ≠ none ∨ (st.heap p).scope.Done st.store.cancelled = true)

/-- The monitor at `p` is stopped: handle clear, scope cancelled. -/
def System.stoppedAt (st : System) (p : Ptr) : Prop :=
  (st.heap p).cancel = none ∧ (st.heap p).scope.Done st.store.cancelled = true

/-- The registry is a map (distinct keys) of monitors that have been started. -/
def System.registryInv (st : System) : Prop :=
  (st.sched.monitors.map (fun e => e.1)).Nodup ∧ ∀ e ∈ st.sched.monitors, st.startedAt e.2

instance (st : System) (p : Ptr) : Decidable (st.startedAt p) := by
  unfold System.startedAt; infer_instance

instance (st : System) : Decidable st.registryInv := by
  unfold System.registryInv; infer_instance

/-- The invariant of the system while `Run` is blocked: the registry is a map
of started monitors, every monitor is well-formed, and every monitor the
scheduler has started is still registered or has been stopped by it. -/
def System.inv (st : System) : Prop :=
  st.registryInv ∧ (∀ p, (st.heap p).wf)
  ∧ (∀ p, MonitorCall.Start p ∈ st.calls →
      (∃ e ∈ st.sched.monitors, e.2 = p) ∨ (MonitorCall.Stop p ∈ st.calls ∧ st.stoppedAt p))

/-- What `Run` may assume of the system it is called on: the registry is a
map, every monitor is well-formed, and every monitor the scheduler has started
so far is still registered or has been stopped by it. A scheduler fresh from
`NewScheduler` over monitors fresh from their literals is in this state. -/
def System.ready (st : System) : Prop :=
  (st.sched.monitors.map (fun e => e.1)).Nodup ∧ (∀ p, (st.heap p).wf)
  ∧ (∀ p, MonitorCall.Start p ∈ st.calls →
      (∃ e ∈ st.sched.monitors, e.2 = p) ∨ (MonitorCall.Stop p ∈ st.calls ∧ st.stoppedAt p))

/-- The scheduler `NewScheduler` builds over `monitor1` (address 0) and
`monitor3` (every other address; address 1 is registered), neither started
yet, under the root scope 0. -/
def system0 : System :=
  { sched := NewScheduler [0] [0, 1] (fun p => if p = 0 then monitor1 else monitor3),
    heap := fun p => if p = 0 then monitor1 else monitor3,
    store := { cancelled := [], next := 1 },
    loops := [],
    calls := [] }

/-- While `Run` is blocked: a check of the first monitor, the removal of the
second, a duplicate add, and the cancellation of the root scope. -/
def eventsUntilCancel : List SysEvent :=
  [.performCheck 0 worldAlways200 4, .stopMonitor "test-monitor3", .addMonitor 0, .cancel 0]

/-! ## The per-monitor loop and its check tasks

`runMonitorLoop` and the `performCheck` tasks it spawns run concurrently. They
are modelled as a transition system over one monitor: every call that locks
the monitor's mutex, every channel operation and the `go` statement are atomic
steps, and a schedule lists which task moves next. -/

/-- Where a task stands inside `Scheduler.performCheck`. -/
inductive CheckPc where
  /-- Before `m.SetRunning(true)`. -/
  | entry
  /-- Inside `m.Check(s.ctx)`. -/
  | checking
  /-- After `Check` has returned `res`; before `m.SetLastHB(res.EndTime)`. -/
  | returned (res : Result)
  /-- Before `s.ResultChannel <- res`. -/
  | sending (res : Result)
  /-- Before the deferred `m.SetRunning(false)`. -/
  | deferred
  | finished
deriving DecidableEq, Repr

/-- Where the task running `runMonitorLoop` stands. -/
inductive LoopPc where
  /-- Inside the `s.performCheck(m)` call before the `for`. -/
  | initialCheck (pc : CheckPc)
  /-- At the `select`. -/
  | selecting
  | exited
deriving DecidableEq, Repr

/-- One monitor, the result channel, its loop task and the tasks started by
`go s.performCheck(m)`, oldest first. -/
structure LoopSystem where
  m : HTTPMonitor
  channel : List Result
  loop : LoopPc
  spawned : List CheckPc
deriving DecidableEq, Repr

/-- One atomic step of `Scheduler.performCheck`; `res` is what `m.Check`
returns when the step is its return. `none`: the task cannot move (the channel
is full, or the task has finished). -/
def performCheckStep (pc : CheckPc) (m : HTTPMonitor) (channel : List Result) (res : Result) :
    Option (CheckPc × HTTPMonitor × List Result) :=
  match pc with
  | .entry => some (.checking, m.SetRunning true, channel)
  | .checking => some (.returned res, m, channel)
  | .returned r => some (.sending r, m.SetLastHB r.EndTime, channel)
  | .sending r => if channel.length < 100 then some (.deferred, m, channel ++ [r]) else none
  | .deferred => some (.finished, m.SetRunning false, channel)
  | .finished => none

/-- What happens next in the system. -/
inductive LoopEvent where
  /-- The loop task moves one step inside its initial `performCheck`. -/
  | loopStep (res : Result)
  /-- The `select` receives from `ticker.C`. -/
  | tick
  /-- The `select` receives from one of the two `Done` channels. -/
  | done
  /-- The `i`-th spawned task moves one step. -/
  | taskStep (i : Nat) (res : Result)
  /-- The consumer receives from the result channel. -/
  | receive
deriving DecidableEq, Repr

/-- One step of the system. An event that is not enabled leaves it unchanged. -/
def LoopSystem.step (st : LoopSystem) : LoopEvent → LoopSystem
  | .loopStep res =>
    match st.loop with
    | .initialCheck pc =>
      match performCheckStep pc st.m st.channel res with
      | some (.finished, m, channel) =>
          { st with m := m, channel := channel, loop := .selecting }
      | some (pc1, m, channel) =>
          { st with m := m, channel := channel, loop := .initialCheck pc1 }
      | none => st
    | _ => st
  | .tick =>
    match st.loop with
    | .selecting =>
      if !st.m.IsRunning then { st with spawned := st.spawned ++ [.entry] } else st
    | _ => st
  | .done =>
    match st.loop with
    | .selecting => { st with loop := .exited }
    | _ => st
  | .taskStep i res =>
    match st.spawned.get? i with
    | some pc =>
      match performCheckStep pc st.m st.channel res with
      | some (pc1, m, channel) =>
          { st with m := m, channel := channel, spawned := st.spawned.set i pc1 }
      | none => st
    | none => st
  | .receive => { st with channel := st.channel.tail }

/-- A schedule, first event first. -/
def LoopSystem.run : List LoopEvent → LoopSystem → LoopSystem
  | [], st => st
  | e :: rest, st => LoopSystem.run rest (st.step e)

/-- The system when `runMonitorLoop(m)` has just been launched. -/
def LoopSystem.launch (m : HTTPMonitor) : LoopSystem :=
  { m := m, channel := [], loop := .initialCheck .entry, spawned := [] }

/-- The number of `Check` invocations in flight. -/
def LoopSystem.inFlight (st : LoopSystem) : Nat :=
  (if st.loop = .initialCheck .checking then 1 else 0)
    + st.spawned.countP (fun pc => pc = .checking)

/-- Some result for a check to return. -/
def resultUp : Result :=
  { MonitorID := "test-monitor3", «Type» := "http/https", Status := .StatusUp,
    StartTime := 0, EndTime := 5 * Millisecond, Duration := 5 * Millisecond, Message := "",
    Error := "", Success := true, CheckedAt := 0 }

/-- The initial check runs to its end, two ticks are served before the task
spawned by the first has run `SetRunning(true)`, then both spawned tasks enter
`Check`. -/
def overlapSchedule : List LoopEvent :=
  [.loopStep resultUp, .loopStep resultUp, .loopStep resultUp, .loopStep resultUp,
   .loopStep resultUp, .tick, .tick, .taskStep 0 resultUp, .taskStep 1 resultUp]

/-! # Part II: the theorems -/

/-! ## Status acceptance -/

theorem isStatusAccepted.scan_iff (status : Int) (accepted : List Int) :
    isStatusAccepted.scan status accepted = true ↔ status ∈ accepted := by
  induction accepted with
  | nil => simp [isStatusAccepted.scan]
  | cons x rest ih =>
    by_cases h : status = x
    · simp [isStatusAccepted.scan, h]
    · simp [isStatusAccepted.scan, h, ih]

/-- C3. A status code is accepted exactly when the accepted list is empty and
the code lies in [200, 400), or the list is non-empty and holds the code; with
an empty list 201 and 399 are accepted, 400 and 404 are not. -/
theorem isStatusAccepted_iff :
    (∀ (c : Int) (L : List Int),
      isStatusAccepted c L = true ↔ (L = [] ∧ 200 ≤ c ∧ c < 400) ∨ (L ≠ [] ∧ c ∈ L))
    ∧ isStatusAccepted 201 [] = true ∧ isStatusAccepted 399 [] = true
    ∧ isStatusAccepted 400 [] = false ∧ isStatusAccepted 404 [] = false := by
  refine ⟨?_, by decide, by decide, by decide, by decide⟩
  intro c L
  cases L with
  | nil => simp [isStatusAccepted]
  | cons x rest =>
    simp only [isStatusAccepted, List.length_cons, Nat.succ_ne_zero, if_false,
      isStatusAccepted.scan_iff]
    simp

/-! ## The attempt loop -/

theorem wrapInt64_of_inInt64 (x : Int) (h : inInt64 x) : wrapInt64 x = x := by
  unfold inInt64 at h
  unfold wrapInt64
  omega

theorem replicate_append_cons {α : Type} (k : Nat) (r : α) (l : List α) :
    List.replicate k r ++ r :: l = r :: (List.replicate k r ++ l) := by
  induction k with
  | zero => rfl
  | succ k ih => simp [List.replicate_succ, ih]

/-- One iteration whose poll finds the scope live and whose probe fails, with
attempts remaining: sleep, then the next iteration. -/
theorem checkLoop_fail_step (w : World) (s : CtxStore) (retries : Int)
    (m : HTTPMonitor) (fuel : Nat) (a : Int) (i : Nat) (slept : List Duration)
    (hmax : retries ≤ 9223372036854775807) (ha : 0 ≤ a) (hlt : a < retries)
    (hlive : m.scope.Done (s.cancelled ++ w.cancelledBy i) = false)
    (hfail : m.failsAt w i) :
    HTTPMonitor.checkLoop w s retries (fuel + 1) m a i slept
      = HTTPMonitor.checkLoop w s retries fuel m (a + 1) (i + 1)
          (m.RetryInterval :: slept) := by
  obtain ⟨cr, err, hp⟩ := hfail
  have hw : wrapInt64 (a + 1) = a + 1 := wrapInt64_of_inInt64 _ (by unfold inInt64; omega)
  rw [HTTPMonitor.checkLoop]
  simp [hlive, hp, hlt, le_of_lt hlt, hw]

/-- After `k` such iterations the loop stands at attempt `a + k`. -/
theorem checkLoop_fail_steps (w : World) (s : CtxStore) (retries : Int)
    (m : HTTPMonitor) (hmax : retries ≤ 9223372036854775807) :
    ∀ (k fuel : Nat) (a : Int) (i : Nat) (slept : List Duration),
      0 ≤ a → a + k ≤ retries →
      (∀ j, j < k → m.scope.Done (s.cancelled ++ w.cancelledBy (i + j)) = false) →
      (∀ j, j < k → m.failsAt w (i + j)) →
      HTTPMonitor.checkLoop w s retries (fuel + k) m a i slept
        = HTTPMonitor.checkLoop w s retries fuel m (a + k) (i + k)
            (List.replicate k m.RetryInterval ++ slept) := by
  intro k
  induction k with
  | zero => intro fuel a i slept _ _ _ _; simp
  | succ k ih =>
    intro fuel a i slept ha hle hlive hfail
    have h0 := checkLoop_fail_step w s retries m (fuel + k) a i slept hmax ha
      (by push_cast at hle; omega) (by simpa using hlive 0 (Nat.succ_pos k))
      (by simpa using hfail 0 (Nat.succ_pos k))
    have h1 := ih fuel (a + 1) (i + 1) (m.RetryInterval :: slept) (by omega)
      (by push_cast at hle; omega)
      (fun j hj => by have := hlive (j + 1) (by omega); rwa [show i + 1 + j = i + (j + 1) by omega])
      (fun j hj => by have := hfail (j + 1) (by omega); rwa [show i + 1 + j = i + (j + 1) by omega])
    rw [show fuel + (k + 1) = fuel + k + 1 by omega, h0, h1, replicate_append_cons]
    congr 1
    · push_cast; omega
    · omega

theorem withScope_performCheck (m : HTTPMonitor) (a : Attempt) :
    m.withScope.performCheck a = m.performCheck a := by
  unfold HTTPMonitor.withScope
  split <;> rfl

theorem withScope_scope (m : HTTPMonitor) : m.withScope.scope = m.scope := by
  unfold HTTPMonitor.withScope HTTPMonitor.scope
  split
  · next h => simp [h]
  · rfl

theorem withScope_fields (m : HTTPMonitor) :
    m.withScope.ID = m.ID ∧ m.withScope.Retries = m.Retries
    ∧ m.withScope.DegradedThreshold = m.DegradedThreshold
    ∧ m.withScope.client = m.client := by
  unfold HTTPMonitor.withScope
  split <;> simp

theorem Check_eq (m : HTTPMonitor) (s : CtxStore) (w : World) (fuel : Nat) :
    m.Check s w fuel
      = HTTPMonitor.checkLoop w s (max 0 m.Retries) fuel m.withScope 0 0 [] := by
  unfold HTTPMonitor.Check
  have h := (withScope_fields m).2.1
  unfold HTTPMonitor.withScope at h ⊢
  simp only [h]

theorem withScope_failsAt (m : HTTPMonitor) (w : World) (i : Nat) :
    m.withScope.failsAt w i ↔ m.failsAt w i := by
  unfold HTTPMonitor.failsAt
  simp only [withScope_performCheck]

theorem performCheck_ok_isUp (m : HTTPMonitor) (a : Attempt) (checkResult : CheckResult)
    (h : m.performCheck a = .returned checkResult none) : checkResult.isUp = true := by
  unfold HTTPMonitor.performCheck at h
  cases a with
  | requestError e => simp at h
  | transportError start e =>
    cases hc : m.client <;> simp [hc] at h
  | response start stop code =>
    cases hc : m.client with
    | none => simp [hc] at h
    | some c =>
      simp only [hc] at h
      split at h
      · simp at h
      · simp only [Probe.returned.injEq, and_true] at h
        rw [← h]

theorem checkLoop_cancelled (w : World) (s : CtxStore) (retries : Int)
    (m : HTTPMonitor) (fuel : Nat) (a : Int) (i : Nat) (slept : List Duration)
    (hle : a ≤ retries) (hdone : m.scope.Done (s.cancelled ++ w.cancelledBy i) = true) :
    HTTPMonitor.checkLoop w s retries (fuel + 1) m a i slept
      = .returned { result := cancelledResult m, monitor := m, attempts := i, slept := slept,
                    exit := .cancelled } := by
  rw [HTTPMonitor.checkLoop]
  simp [hle, hdone, cancelledResult]

theorem checkLoop_final (w : World) (s : CtxStore) (retries : Int)
    (m : HTTPMonitor) (fuel : Nat) (i : Nat) (slept : List Duration)
    (checkResult : CheckResult) (err : String)
    (hlive : m.scope.Done (s.cancelled ++ w.cancelledBy i) = false)
    (hp : m.performCheck (w.probe i) = .returned checkResult (some err)) :
    HTTPMonitor.checkLoop w s retries (fuel + 1) m retries i slept
      = .returned {
          result := { MonitorID := m.ID, «Type» := "http/https", Status := .StatusDown,
                      StartTime := 0, EndTime := 0, Duration := 0, Message := "",
                      Error := "check failed after " ++ toString retries ++ " retries: " ++ err,
                      Success := false, CheckedAt := 0 },
          monitor := m, attempts := i + 1, slept := slept, exit := .finalFailure } := by
  rw [HTTPMonitor.checkLoop]
  simp [hlive, hp]

theorem checkLoop_success (w : World) (s : CtxStore) (retries : Int)
    (m : HTTPMonitor) (fuel : Nat) (a : Int) (i : Nat) (slept : List Duration)
    (checkResult : CheckResult) (hle : a ≤ retries)
    (hlive : m.scope.Done (s.cancelled ++ w.cancelledBy i) = false)
    (hp : m.performCheck (w.probe i) = .returned checkResult none) :
    ∃ run, HTTPMonitor.checkLoop w s retries (fuel + 1) m a i slept = .returned run
      ∧ run.attempts = i + 1 ∧ run.exit = .success
      ∧ run.result.Success = true ∧ run.result.Error = ""
      ∧ run.result.Duration = checkResult.duration
      ∧ run.result.Status =
          (if checkResult.duration ≥
                (if m.DegradedThreshold > 0 then m.DegradedThreshold else 2000 * Millisecond)
            then Status.StatusDegraded else Status.StatusUp)
      ∧ run.monitor =
          (if m.DegradedThreshold ≤ 0
            then { m with DegradedThreshold := DEGRADED_DEFAULT_THRESHOLD } else m) := by
  have hup := performCheck_ok_isUp m _ _ hp
  rw [HTTPMonitor.checkLoop]
  simp only [hle, if_true, hlive, hp]
  refine ⟨_, rfl, rfl, rfl, ?_, ?_, ?_, ?_, rfl⟩
  · by_cases hd : m.DegradedThreshold ≤ 0 <;> simp only [hd, if_true, if_false] <;>
      split <;> simp [hup]
  · by_cases hd : m.DegradedThreshold ≤ 0 <;> simp only [hd, if_true, if_false] <;>
      split <;> simp
  · by_cases hd : m.DegradedThreshold ≤ 0 <;> simp only [hd, if_true, if_false] <;>
      split <;> simp
  · by_cases hd : m.DegradedThreshold ≤ 0
    · have hd2 : ¬ m.DegradedThreshold > 0 := not_lt.mpr hd
      simp only [hd, hd2, if_true, if_false, DEGRADED_DEFAULT_THRESHOLD]
      split <;> simp
    · have hd2 : m.DegradedThreshold > 0 := lt_of_not_le hd
      simp only [hd, hd2, if_true, if_false]
      split <;> simp

theorem final_error_ne_unexpected (x : String) :
    "check failed after " ++ x ≠ "unexpected error" := by
  intro h
  have h2 := congrArg String.data h
  rw [String.data_append] at h2
  have h3 := congrArg List.head? h2
  have h4 : ("check failed after ".data ++ x.data).head? = some 'c' := rfl
  rw [h4] at h3
  exact absurd h3 (by decide)

theorem checkLoop_withinLoop (w : World) (s : CtxStore) (retries : Int)
    (m : HTTPMonitor) (hmax : retries ≤ 9223372036854775807) :
    ∀ (fuel : Nat) (a : Int) (i : Nat) (slept : List Duration),
      0 ≤ a → a ≤ retries → (retries - a).toNat < fuel →
      (HTTPMonitor.checkLoop w s retries fuel m a i slept).withinLoop
        (i + (retries - a).toNat + 1) := by
  intro fuel
  induction fuel with
  | zero => intro a i slept _ _ h; omega
  | succ fuel ih =>
    intro a i slept ha hle hfuel
    rw [HTTPMonitor.checkLoop]
    simp only [hle, if_true]
    split
    · simp only [Outcome.withinLoop]
      exact ⟨by simp, by decide, by omega⟩
    · split
      · simp only [Outcome.withinLoop]
        omega
      · next cr hp =>
        simp only [Outcome.withinLoop]
        refine ⟨by simp, ?_, by omega⟩
        have hne : ("" : String) ≠ "unexpected error" := by decide
        split <;> split <;> exact hne
      · next cr err hp =>
        split
        · next hlt =>
          have hw : wrapInt64 (a + 1) = a + 1 :=
            wrapInt64_of_inInt64 _ (by unfold inInt64; omega)
          rw [hw]
          have := ih (a + 1) (i + 1) (m.RetryInterval :: slept) (by omega) (by omega) (by omega)
          rw [show i + (retries - a).toNat + 1 = i + 1 + (retries - (a + 1)).toNat + 1 by omega]
          exact this
        · simp only [Outcome.withinLoop]
          refine ⟨by simp, ?_, by omega⟩
          simp only [String.append_assoc]
          exact final_error_ne_unexpected _

theorem checkLoop_no_panic (w : World) (s : CtxStore) (retries : Int)
    (m : HTTPMonitor) (hclient : m.client ≠ none) :
    ∀ (fuel : Nat) (a : Int) (i : Nat) (slept : List Duration) (n : Nat),
      HTTPMonitor.checkLoop w s retries fuel m a i slept ≠ .panicked n := by
  have hprobe : ∀ a, m.performCheck a ≠ .nilClient := by
    intro a
    unfold HTTPMonitor.performCheck
    cases hc : m.client with
    | none => exact absurd hc hclient
    | some c =>
      cases a
      · simp
      · simp
      · simp only
        split <;> simp
  intro fuel
  induction fuel with
  | zero => intro a i slept n; simp [HTTPMonitor.checkLoop]
  | succ fuel ih =>
    intro a i slept n
    rw [HTTPMonitor.checkLoop]
    split
    · split
      · simp
      · split
        · next hp => exact absurd hp (hprobe _)
        · simp
        · split
          · exact ih _ _ _ _
          · simp
    · simp

/-! ## Retry bound, classification, cancellation, fallthrough -/

/-- C1. When the scope polled by `Check` is never found cancelled and every
probe attempt fails, `Check` makes exactly `max(0, Retries) + 1` attempts (one
when `Retries <= 0`) and returns Down, `Success = false`, with the error
`check failed after <max(0, Retries)> retries: <error of the last attempt>`. -/
theorem Check_retry_bound (m : HTTPMonitor) (s : CtxStore) (w : World) (fuel : Nat)
    (hR : inInt64 m.Retries)
    (hlive : ∀ i, i ≤ (max 0 m.Retries).toNat →
      m.scope.Done (s.cancelled ++ w.cancelledBy i) = false)
    (hfail : ∀ i, i ≤ (max 0 m.Retries).toNat → m.failsAt w i)
    (hfuel : (max 0 m.Retries).toNat < fuel) :
    ∃ run checkResult err,
      m.Check s w fuel = .returned run
      ∧ m.performCheck (w.probe (max 0 m.Retries).toNat) = .returned checkResult (some err)
      ∧ run.attempts = (max 0 m.Retries).toNat + 1
      ∧ run.attempts = (if m.Retries ≤ 0 then 1 else m.Retries.toNat + 1)
      ∧ run.exit = .finalFailure
      ∧ run.result.Status = .StatusDown
      ∧ run.result.Success = false
      ∧ run.result.Error
          = "check failed after " ++ toString (max 0 m.Retries) ++ " retries: " ++ err := by
  obtain ⟨cr, err, hp⟩ := hfail _ (le_refl _)
  rw [← withScope_scope] at hlive
  have hmax : max 0 m.Retries ≤ 9223372036854775807 := by
    unfold inInt64 at hR; omega
  have hcast : (0 : Int) + ((max 0 m.Retries).toNat : Nat) = max 0 m.Retries := by omega
  obtain ⟨f, rfl⟩ : ∃ f, fuel = f + 1 + (max 0 m.Retries).toNat :=
    ⟨fuel - 1 - (max 0 m.Retries).toNat, by omega⟩
  have hsteps := checkLoop_fail_steps w s (max 0 m.Retries) m.withScope hmax
    (max 0 m.Retries).toNat (f + 1) 0 0 [] (le_refl _) (by omega)
    (fun j hj => by simpa using hlive j (le_of_lt hj))
    (fun j hj => by
      rw [withScope_failsAt]; simpa using hfail j (le_of_lt hj))
  rw [hcast, Nat.zero_add] at hsteps
  have hfin := checkLoop_final w s (max 0 m.Retries) m.withScope f
    (max 0 m.Retries).toNat (List.replicate (max 0 m.Retries).toNat m.withScope.RetryInterval ++ [])
    cr err (hlive _ (le_refl _)) (by rw [withScope_performCheck]; exact hp)
  rw [Check_eq, hsteps, hfin]
  refine ⟨_, cr, err, rfl, hp, rfl, ?_, rfl, rfl, rfl, rfl⟩
  show (max 0 m.Retries).toNat + 1 = (if m.Retries ≤ 0 then 1 else m.Retries.toNat + 1)
  split <;> omega

/-- The retry bound on `monitor3`, started, against a server that always answers 500. -/
theorem Check_retry_bound_witness :
    ∃ run checkResult err,
      monitor3Started.Check storeStarted worldAlways500 4 = .returned run
      ∧ monitor3Started.performCheck (worldAlways500.probe (max 0 monitor3Started.Retries).toNat)
          = .returned checkResult (some err)
      ∧ run.attempts = (max 0 monitor3Started.Retries).toNat + 1
      ∧ run.attempts
          = (if monitor3Started.Retries ≤ 0 then 1 else monitor3Started.Retries.toNat + 1)
      ∧ run.exit = .finalFailure
      ∧ run.result.Status = .StatusDown
      ∧ run.result.Success = false
      ∧ run.result.Error
          = "check failed after " ++ toString (max 0 monitor3Started.Retries) ++ " retries: " ++ err :=
  Check_retry_bound monitor3Started storeStarted worldAlways500 4 (by decide)
    (fun _ _ => rfl) (fun _ _ => ⟨_, _, rfl⟩) (by decide)

/-- C2. When attempt `k` (counting from 0, within the retry budget) is the
first that succeeds, `Check` returns after exactly `k + 1` attempts with
`Success = true`, and with threshold `t = DegradedThreshold` if that is
positive and 2000 ms otherwise the status is Degraded when the observed
duration is at least `t` and Up when it is below `t`. -/
theorem Check_latency_classification (m : HTTPMonitor) (s : CtxStore) (w : World)
    (fuel k : Nat) (checkResult : CheckResult)
    (hR : inInt64 m.Retries)
    (hk : (k : Int) ≤ max 0 m.Retries)
    (hlive : ∀ j, j ≤ k → m.scope.Done (s.cancelled ++ w.cancelledBy j) = false)
    (hfail : ∀ j, j < k → m.failsAt w j)
    (hok : m.performCheck (w.probe k) = .returned checkResult none)
    (hfuel : k < fuel) :
    ∃ run,
      m.Check s w fuel = .returned run
      ∧ run.attempts = k + 1
      ∧ run.result.Success = true
      ∧ run.result.Duration = checkResult.duration
      ∧ run.result.Status =
          (if checkResult.duration ≥
                (if m.DegradedThreshold > 0 then m.DegradedThreshold else 2000 * Millisecond)
            then Status.StatusDegraded else Status.StatusUp) := by
  rw [← withScope_scope] at hlive
  have hmax : max 0 m.Retries ≤ 9223372036854775807 := by
    unfold inInt64 at hR; omega
  obtain ⟨f, rfl⟩ : ∃ f, fuel = f + 1 + k := ⟨fuel - 1 - k, by omega⟩
  have hsteps := checkLoop_fail_steps w s (max 0 m.Retries) m.withScope hmax
    k (f + 1) 0 0 [] (le_refl _) (by omega)
    (fun j hj => by simpa using hlive j (le_of_lt hj))
    (fun j hj => by rw [withScope_failsAt]; simpa using hfail j hj)
  rw [Nat.zero_add] at hsteps
  obtain ⟨run, hrun, hatt, -, hsucc, -, hdur, hstatus, -⟩ :=
    checkLoop_success w s (max 0 m.Retries) m.withScope f (0 + (k : Int)) k
      (List.replicate k m.withScope.RetryInterval ++ []) checkResult (by omega)
      (hlive k (le_refl _)) (by rw [withScope_performCheck]; exact hok)
  rw [(withScope_fields m).2.2.1] at hstatus
  refine ⟨run, ?_, hatt, hsucc, hdur, hstatus⟩
  rw [Check_eq, hsteps, hrun]

/-- The classification on `monitor3` (threshold 10 ms) when the third attempt succeeds after 30 ms. -/
theorem Check_latency_classification_witness :
    ∃ run,
      monitor3Started.Check storeStarted worldSlowThird 4 = .returned run
      ∧ run.attempts = 2 + 1
      ∧ run.result.Success = true
      ∧ run.result.Duration = 30 * Millisecond
      ∧ run.result.Status =
          (if 30 * Millisecond ≥
                (if monitor3Started.DegradedThreshold > 0 then monitor3Started.DegradedThreshold
                  else 2000 * Millisecond)
            then Status.StatusDegraded else Status.StatusUp) :=
  Check_latency_classification monitor3Started storeStarted worldSlowThird 4 2
    { isUp := true, start := 0, «end» := 30 * Millisecond, duration := 30 * Millisecond,
      code := 200 }
    (by decide) (by decide) (fun _ _ => rfl)
    (fun j hj => by
      have h : worldSlowThird.probe j = .response 0 (5 * Millisecond) 500 := by
        simp [worldSlowThird, hj]
      exact ⟨_, _, by rw [h]; rfl⟩)
    (by decide) (by decide)

/-! ### Cancellation -/

theorem Done_append_left (c : Context) (l1 l2 : List ScopeId) (h : c.Done l1 = true) :
    c.Done (l1 ++ l2) = true := by
  unfold Context.Done at h ⊢
  simp only [List.any_eq_true] at h ⊢
  obtain ⟨x, hx, hm⟩ := h
  refine ⟨x, hx, ?_⟩
  have hm2 : x ∈ l1 := by simpa using hm
  simpa using Or.inl hm2

theorem Done_cons_of_mem (c : ScopeId) (parent : Context) (l : List ScopeId) (h : c ∈ l) :
    Context.Done (c :: parent) l = true := by
  unfold Context.Done
  simp [h]

theorem Done_cons_of_parent (c : ScopeId) (parent : Context) (l : List ScopeId)
    (h : parent.Done l = true) : Context.Done (c :: parent) l = true := by
  unfold Context.Done at h ⊢
  simp only [List.any_cons, Bool.or_eq_true]
  exact Or.inr h

theorem mem_fire (s : CtxStore) (id : ScopeId) : id ∈ (s.fire id).cancelled := by
  unfold CtxStore.fire
  split
  · next h => simpa using h
  · simp

theorem initHTTPClient_frame (m : HTTPMonitor) :
    m.initHTTPClient.ID = m.ID ∧ m.initHTTPClient.URL = m.URL
    ∧ m.initHTTPClient.HBInterval = m.HBInterval ∧ m.initHTTPClient.Retries = m.Retries
    ∧ m.initHTTPClient.RetryInterval = m.RetryInterval
    ∧ m.initHTTPClient.ReqTimeout = m.ReqTimeout
    ∧ m.initHTTPClient.MaxRedirects = m.MaxRedirects
    ∧ m.initHTTPClient.AcceptedStatusCodes = m.AcceptedStatusCodes
    ∧ m.initHTTPClient.IPFamily = m.IPFamily
    ∧ m.initHTTPClient.DegradedThreshold = m.DegradedThreshold
    ∧ m.initHTTPClient.lastHB = m.lastHB ∧ m.initHTTPClient.running = m.running
    ∧ m.initHTTPClient.ctx = m.ctx ∧ m.initHTTPClient.cancel = m.cancel
    ∧ m.initHTTPClient.client.isSome = true
    ∧ m.initHTTPClient.HTTPMethod
        = (if strings_ToUpper m.HTTPMethod = "" then "GET" else strings_ToUpper m.HTTPMethod) := by
  unfold HTTPMonitor.initHTTPClient
  by_cases h : strings_ToUpper m.HTTPMethod = "" <;> simp [h]

theorem Start_of_clear (m : HTTPMonitor) (parent : Context) (s : CtxStore)
    (h : m.cancel = none) :
    m.Start parent s
      = (({ m with ctx := some (s.next :: parent), cancel := some s.next }).initHTTPClient,
          { s with next := s.next + 1 }) := by
  unfold HTTPMonitor.Start WithCancel
  simp [h]

theorem Start_of_set (m : HTTPMonitor) (parent : Context) (s : CtxStore)
    (h : m.cancel ≠ none) : m.Start parent s = (m, s) := by
  unfold HTTPMonitor.Start
  simp [h]

theorem Check_cancelled_at (m : HTTPMonitor) (s : CtxStore) (w : World) (fuel k : Nat)
    (hR : inInt64 m.Retries) (hfuel : k < fuel)
    (hk : (k : Int) ≤ max 0 m.Retries)
    (hlive : ∀ j, j < k → m.scope.Done (s.cancelled ++ w.cancelledBy j) = false)
    (hfail : ∀ j, j < k → m.failsAt w j)
    (hdone : m.scope.Done (s.cancelled ++ w.cancelledBy k) = true) :
    ∃ run, m.Check s w fuel = .returned run ∧ run.cancelledAfter k := by
  rw [← withScope_scope] at hlive hdone
  have hmax : max 0 m.Retries ≤ 9223372036854775807 := by
    unfold inInt64 at hR; omega
  obtain ⟨f, rfl⟩ : ∃ f, fuel = f + 1 + k := ⟨fuel - 1 - k, by omega⟩
  have hsteps := checkLoop_fail_steps w s (max 0 m.Retries) m.withScope hmax
    k (f + 1) 0 0 [] (le_refl _) (by omega)
    (fun j hj => by simpa using hlive j hj)
    (fun j hj => by rw [withScope_failsAt]; simpa using hfail j hj)
  rw [Nat.zero_add] at hsteps
  have hc := checkLoop_cancelled w s (max 0 m.Retries) m.withScope f (0 + (k : Int)) k
    (List.replicate k m.withScope.RetryInterval ++ []) (by omega) hdone
  rw [Check_eq, hsteps, hc]
  exact ⟨_, rfl, rfl, rfl, rfl, rfl, rfl⟩

theorem Start_Stop_scope_done (m : HTTPMonitor) (parent : Context) (s : CtxStore)
    (hwf : m.wf) :
    ((m.Start parent s).1.Stop (m.Start parent s).2).1.scope.Done
      ((m.Start parent s).1.Stop (m.Start parent s).2).2.cancelled = true := by
  cases hc : m.cancel with
  | none =>
    rw [Start_of_clear m parent s hc]
    have hf := initHTTPClient_frame
      { m with ctx := some (s.next :: parent), cancel := some s.next }
    have hcancel := hf.2.2.2.2.2.2.2.2.2.2.2.2.2.1
    have hctx := hf.2.2.2.2.2.2.2.2.2.2.2.2.1
    simp only at hcancel hctx
    simp only [HTTPMonitor.Stop, hcancel, HTTPMonitor.scope, hctx, Option.getD_some]
    exact Done_cons_of_mem _ _ _ (mem_fire _ _)
  | some c =>
    rw [Start_of_set m parent s (by simp [hc])]
    unfold HTTPMonitor.wf at hwf
    simp only [hc] at hwf
    obtain ⟨hhead, -⟩ := hwf
    cases hx : m.ctx with
    | none => simp [hx] at hhead
    | some l =>
      cases l with
      | nil => simp [hx] at hhead
      | cons d rest =>
        simp only [hx, Option.some_bind, List.head?_cons, Option.some.injEq] at hhead
        subst hhead
        simp only [HTTPMonitor.Stop, hc, HTTPMonitor.scope, hx, Option.getD_some]
        exact Done_cons_of_mem _ _ _ (mem_fire _ _)

theorem Start_Stop_Retries (m : HTTPMonitor) (parent : Context) (s : CtxStore) :
    ((m.Start parent s).1.Stop (m.Start parent s).2).1.Retries = m.Retries
    ∧ (m.Start parent s).1.Retries = m.Retries := by
  have h1 : (m.Start parent s).1.Retries = m.Retries := by
    cases hc : m.cancel with
    | none => rw [Start_of_clear m parent s hc]; exact (initHTTPClient_frame _).2.2.2.1
    | some c => rw [Start_of_set m parent s (by simp [hc])]
  refine ⟨?_, h1⟩
  unfold HTTPMonitor.Stop
  split <;> simp [h1]

/-- C4. A `Check` on a monitor that was started and then stopped, or started
under a parent scope that is already cancelled, makes no probe attempt and
returns Down, `Success = false`, error `monitor cancelled`; and when the poll
before attempt `k + 1` of a `Check` finds the scope cancelled after `k` failed
attempts, that `Check` returns the same result after exactly `k` attempts. -/
theorem Check_cancellation_short_circuit (m : HTTPMonitor) (parent : Context) (s : CtxStore)
    (m2 : HTTPMonitor) (s2 : CtxStore) (w : World) (fuel k : Nat)
    (hwf : m.wf) (hR : inInt64 m.Retries) (hR2 : inInt64 m2.Retries) (hfuel : k < fuel) :
    (∃ run,
      ((m.Start parent s).1.Stop (m.Start parent s).2).1.Check
          ((m.Start parent s).1.Stop (m.Start parent s).2).2 w fuel = .returned run
        ∧ run.cancelledAfter 0)
    ∧ (m.cancel = none → parent.Done s.cancelled = true →
        ∃ run, (m.Start parent s).1.Check (m.Start parent s).2 w fuel = .returned run
          ∧ run.cancelledAfter 0)
    ∧ ((k : Int) ≤ max 0 m2.Retries →
        (∀ j, j < k → m2.scope.Done (s2.cancelled ++ w.cancelledBy j) = false) →
        (∀ j, j < k → m2.failsAt w j) →
        m2.scope.Done (s2.cancelled ++ w.cancelledBy k) = true →
        ∃ run, m2.Check s2 w fuel = .returned run ∧ run.cancelledAfter k) := by
  refine ⟨?_, ?_, ?_⟩
  · exact Check_cancelled_at _ _ w fuel 0
      (by rw [(Start_Stop_Retries m parent s).1]; exact hR) (by omega)
      (by simp) (fun j hj => absurd hj (Nat.not_lt_zero j))
      (fun j hj => absurd hj (Nat.not_lt_zero j))
      (Done_append_left _ _ _ (Start_Stop_scope_done m parent s hwf))
  · intro hc hdone
    refine Check_cancelled_at _ _ w fuel 0
      (by rw [(Start_Stop_Retries m parent s).2]; exact hR) (by omega)
      (by simp) (fun j hj => absurd hj (Nat.not_lt_zero j))
      (fun j hj => absurd hj (Nat.not_lt_zero j)) (Done_append_left _ _ _ ?_)
    rw [Start_of_clear m parent s hc]
    have hf := initHTTPClient_frame
      { m with ctx := some (s.next :: parent), cancel := some s.next }
    have hctx := hf.2.2.2.2.2.2.2.2.2.2.2.2.1
    simp only at hctx
    simp only [HTTPMonitor.scope, hctx, Option.getD_some]
    exact Done_cons_of_parent _ _ _ hdone
  · intro hk hlive hfail hdone
    exact Check_cancelled_at m2 s2 w fuel k hR2 hfuel hk hlive hfail hdone

/-- The short-circuit on `monitor3`: started then stopped, started under a cancelled root, and stopped between the second and third attempt. -/
theorem Check_cancellation_short_circuit_witness :
    (∃ run,
      ((monitor3.Start [0] storeRootCancelled).1.Stop
          (monitor3.Start [0] storeRootCancelled).2).1.Check
          ((monitor3.Start [0] storeRootCancelled).1.Stop
            (monitor3.Start [0] storeRootCancelled).2).2 worldStoppedAtThird 4
        = .returned run
        ∧ run.cancelledAfter 0)
    ∧ (∃ run, (monitor3.Start [0] storeRootCancelled).1.Check
          (monitor3.Start [0] storeRootCancelled).2 worldStoppedAtThird 4 = .returned run
        ∧ run.cancelledAfter 0)
    ∧ (∃ run, monitor3Started.Check storeStarted worldStoppedAtThird 4 = .returned run
        ∧ run.cancelledAfter 2) :=
  have h := Check_cancellation_short_circuit monitor3 [0] storeRootCancelled
    monitor3Started storeStarted worldStoppedAtThird 4 2
    (by decide) (by decide) (by decide) (by decide)
  ⟨h.1, h.2.1 rfl (by decide), h.2.2 (by decide)
    (fun j hj => by
      have hw : worldStoppedAtThird.cancelledBy j = [] := by simp [worldStoppedAtThird, hj]
      rw [hw]; rfl)
    (fun _ _ => ⟨_, _, rfl⟩)
    (by decide)⟩

/-! ### The fallthrough -/

/-- C10. For every value of `Retries`, every cancellation pattern and every
sequence of probe outcomes, `Check` leaves from inside the attempt loop after
at most `max(0, Retries) + 1` attempts: it returns through one of the three
`return` statements of the loop, never with the error `unexpected error`
(the only other way out is the nil-client panic of a monitor that was never
started, inside an attempt); `max(0, Retries) + 1` loop iterations suffice. -/
theorem Check_fallthrough_unreachable (m : HTTPMonitor) (s : CtxStore) (w : World)
    (fuel : Nat) (hR : inInt64 m.Retries) (hfuel : (max 0 m.Retries).toNat < fuel) :
    (∃ run, m.Check s w fuel = .returned run
        ∧ run.exit ≠ .fallthrough ∧ run.result.Error ≠ "unexpected error"
        ∧ run.attempts ≤ (max 0 m.Retries).toNat + 1)
    ∨ (m.client = none ∧ ∃ n, m.Check s w fuel = .panicked n
        ∧ n < (max 0 m.Retries).toNat + 1) := by
  have hmax : max 0 m.Retries ≤ 9223372036854775807 := by
    unfold inInt64 at hR; omega
  have h := checkLoop_withinLoop w s (max 0 m.Retries) m.withScope hmax fuel 0 0 []
    (le_refl _) (by omega) (by simpa using hfuel)
  rw [← Check_eq] at h
  cases hc : m.Check s w fuel with
  | returned run =>
    rw [hc] at h
    exact Or.inl ⟨run, rfl, by simpa [Outcome.withinLoop] using h⟩
  | panicked n =>
    rw [hc] at h
    refine Or.inr ⟨?_, n, rfl, by simpa [Outcome.withinLoop] using h⟩
    by_contra hclient
    have hnp := checkLoop_no_panic w s (max 0 m.Retries) m.withScope
      (by rw [(withScope_fields m).2.2.2]; exact hclient) fuel 0 0 [] n
    rw [← Check_eq] at hnp
    exact hnp hc
  | outOfFuel => rw [hc] at h; exact absurd h (by simp [Outcome.withinLoop])

/-- The exit of `Check` on `monitor3`, started, when the third attempt succeeds. -/
theorem Check_fallthrough_unreachable_witness :
    (∃ run, monitor3Started.Check storeStarted worldSlowThird 4 = .returned run
        ∧ run.exit ≠ .fallthrough ∧ run.result.Error ≠ "unexpected error"
        ∧ run.attempts ≤ (max 0 monitor3Started.Retries).toNat + 1)
    ∨ (monitor3Started.client = none
        ∧ ∃ n, monitor3Started.Check storeStarted worldSlowThird 4 = .panicked n
        ∧ n < (max 0 monitor3Started.Retries).toNat + 1) :=
  Check_fallthrough_unreachable monitor3Started storeStarted worldSlowThird 4
    (by decide) (by decide)

/-! ## The start/stop state machine -/

theorem fire_wf (s : CtxStore) (c : ScopeId) (hs : s.wf) (hc : c < s.next) : (s.fire c).wf := by
  unfold CtxStore.fire
  split
  · exact hs
  · intro id hid
    simp only [List.mem_cons] at hid
    rcases hid with rfl | hid
    · exact hc
    · exact hs id hid

theorem fire_next (s : CtxStore) (c : ScopeId) : (s.fire c).next = s.next := by
  unfold CtxStore.fire
  split <;> rfl

theorem lifecycleInv_Start (m : HTTPMonitor) (s : CtxStore) (parent : Context)
    (h : lifecycleInv (m, s)) : lifecycleInv (m.Start parent s) := by
  obtain ⟨hm, hs, hc⟩ := h
  cases hcl : m.cancel with
  | some c => rw [Start_of_set m parent s (by simp [hcl])]; exact ⟨hm, hs, hc⟩
  | none =>
    rw [Start_of_clear m parent s hcl]
    have hf := initHTTPClient_frame
      { m with ctx := some (s.next :: parent), cancel := some s.next }
    have hcancel := hf.2.2.2.2.2.2.2.2.2.2.2.2.2.1
    have hctx := hf.2.2.2.2.2.2.2.2.2.2.2.2.1
    have hclient := hf.2.2.2.2.2.2.2.2.2.2.2.2.2.2.1
    simp only at hcancel hctx
    refine ⟨?_, ?_, ?_⟩
    · unfold HTTPMonitor.wf
      simp only [hcancel, hctx, hclient]
      simp
    · intro id hid
      exact Nat.lt_succ_of_lt (hs id hid)
    · intro c hc2
      simp only [hcancel, Option.mem_def, Option.some.injEq] at hc2
      subst hc2
      exact Nat.lt_succ_self _

theorem lifecycleInv_Stop (m : HTTPMonitor) (s : CtxStore)
    (h : lifecycleInv (m, s)) : lifecycleInv (m.Stop s) := by
  obtain ⟨hm, hs, hc⟩ := h
  unfold HTTPMonitor.Stop
  cases hcl : m.cancel with
  | none => simp only; exact ⟨hm, hs, by simp [hcl]⟩
  | some c =>
    simp only
    refine ⟨?_, fire_wf s c hs (hc c (by simp [hcl])), by simp⟩
    unfold HTTPMonitor.wf
    simp

theorem lifecycleInv_applyCalls (calls : List LifecycleCall) :
    ∀ ms, lifecycleInv ms → lifecycleInv (applyCalls calls ms) := by
  induction calls with
  | nil => intro ms h; exact h
  | cons c rest ih =>
    intro ms h
    apply ih
    cases c with
    | start parent => exact lifecycleInv_Start ms.1 ms.2 parent h
    | stop => exact lifecycleInv_Stop ms.1 ms.2 h

theorem Stop_of_set (m : HTTPMonitor) (s : CtxStore) (c : ScopeId) (h : m.cancel = some c) :
    m.Stop s = ({ m with cancel := none }, s.fire c) := by
  unfold HTTPMonitor.Stop
  simp [h]

theorem wf_scope (m : HTTPMonitor) (c : ScopeId) (hwf : m.wf) (h : m.cancel = some c) :
    ∃ rest, m.ctx = some (c :: rest) := by
  unfold HTTPMonitor.wf at hwf
  simp only [h] at hwf
  obtain ⟨hhead, -⟩ := hwf
  cases hx : m.ctx with
  | none => simp [hx] at hhead
  | some l =>
    cases l with
    | nil => simp [hx] at hhead
    | cons d rest =>
      simp only [hx, Option.some_bind, List.head?_cons, Option.some.injEq] at hhead
      exact ⟨rest, by rw [hhead]⟩

/-- A monitor fresh from its composite literal fits every well-formed store. -/
theorem lifecycleInv_of_fresh (m : HTTPMonitor) (s : CtxStore) (hm : m.fresh) (hs : s.wf) :
    lifecycleInv (m, s) := by
  obtain ⟨-, -, -, hc, -⟩ := hm
  refine ⟨?_, hs, ?_⟩
  · unfold HTTPMonitor.wf
    simp [hc]
  · simp [hc]

/-- C7. Let `(a, sa)` and `(b, sb)` be states that sequences of `Start` and
`Stop` calls leave a monitor in, `a` with the cancel handle set and `b` with
it clear. `Start` on `a` changes nothing, whatever the parent; `Stop` on `b`
changes nothing; `Stop` on `a` clears the handle, keeps the stored scope and
leaves that scope cancelled; `Start` on `b` builds a client and stores a fresh
child scope of the given parent, which is cancelled exactly when its own
handle or the parent has fired, and right after the call exactly when the
parent is. -/
theorem Start_Stop_state_machine (m0 : HTTPMonitor) (s0 : CtxStore)
    (callsA callsB : List LifecycleCall) (parent : Context)
    (a : HTTPMonitor) (sa : CtxStore) (b : HTTPMonitor) (sb : CtxStore)
    (hinv : lifecycleInv (m0, s0))
    (hreachA : applyCalls callsA (m0, s0) = (a, sa))
    (hreachB : applyCalls callsB (m0, s0) = (b, sb))
    (hset : a.cancel ≠ none) (hclear : b.cancel = none) :
    a.Start parent sa = (a, sa)
    ∧ b.Stop sb = (b, sb)
    ∧ ((a.Stop sa).1.cancel = none ∧ (a.Stop sa).1.ctx = a.ctx
        ∧ (a.Stop sa).1.client = a.client
        ∧ a.scope.Done (a.Stop sa).2.cancelled = true)
    ∧ ((b.Start parent sb).1.cancel = some sb.next
        ∧ (b.Start parent sb).1.ctx = some (sb.next :: parent)
        ∧ (b.Start parent sb).1.client.isSome = true
        ∧ (∀ fired : List ScopeId,
            Context.Done (sb.next :: parent) fired
              = (fired.contains sb.next || parent.Done fired))
        ∧ (b.Start parent sb).1.scope.Done (b.Start parent sb).2.cancelled
            = parent.Done (b.Start parent sb).2.cancelled) := by
  have hA := lifecycleInv_applyCalls callsA (m0, s0) hinv
  have hB := lifecycleInv_applyCalls callsB (m0, s0) hinv
  rw [hreachA] at hA
  rw [hreachB] at hB
  obtain ⟨hm, -, -⟩ := hA
  obtain ⟨-, hs, -⟩ := hB
  simp only at hm hs
  refine ⟨Start_of_set a parent sa hset, ?_, ?_, ?_⟩
  · unfold HTTPMonitor.Stop
    simp [hclear]
  · obtain ⟨c, hcs⟩ := Option.ne_none_iff_exists'.mp hset
    obtain ⟨rest, hctx⟩ := wf_scope a c hm hcs
    rw [Stop_of_set a sa c hcs]
    refine ⟨rfl, rfl, rfl, ?_⟩
    simp only [HTTPMonitor.scope, hctx, Option.getD_some]
    exact Done_cons_of_mem _ _ _ (mem_fire _ _)
  · rw [Start_of_clear b parent sb hclear]
    have hf := initHTTPClient_frame
      { b with ctx := some (sb.next :: parent), cancel := some sb.next }
    have hcancel := hf.2.2.2.2.2.2.2.2.2.2.2.2.2.1
    have hctx := hf.2.2.2.2.2.2.2.2.2.2.2.2.1
    have hclient := hf.2.2.2.2.2.2.2.2.2.2.2.2.2.2.1
    simp only at hcancel hctx
    refine ⟨hcancel, hctx, hclient, ?_, ?_⟩
    · intro fired
      simp [Context.Done]
    · simp only [HTTPMonitor.scope, hctx, Option.getD_some]
      have hfresh : sb.next ∉ sb.cancelled := fun hmem => Nat.lt_irrefl _ (hs _ hmem)
      simp [Context.Done, hfresh]

/-- The state machine on `monitor3` after `Start` (handle set) and after `Start`, `Stop` (handle clear). -/
theorem Start_Stop_state_machine_witness :
    monitor3Started.Start [5] storeStarted = (monitor3Started, storeStarted)
    ∧ (monitor3Started.Stop storeStarted).1.Stop (monitor3Started.Stop storeStarted).2
        = ((monitor3Started.Stop storeStarted).1, (monitor3Started.Stop storeStarted).2)
    ∧ ((monitor3Started.Stop storeStarted).1.cancel = none
        ∧ (monitor3Started.Stop storeStarted).1.ctx = monitor3Started.ctx
        ∧ (monitor3Started.Stop storeStarted).1.client = monitor3Started.client
        ∧ monitor3Started.scope.Done (monitor3Started.Stop storeStarted).2.cancelled = true)
    ∧ (((monitor3Started.Stop storeStarted).1.Start [5]
          (monitor3Started.Stop storeStarted).2).1.cancel
          = some (monitor3Started.Stop storeStarted).2.next
        ∧ ((monitor3Started.Stop storeStarted).1.Start [5]
            (monitor3Started.Stop storeStarted).2).1.ctx
          = some ((monitor3Started.Stop storeStarted).2.next :: [5])
        ∧ ((monitor3Started.Stop storeStarted).1.Start [5]
            (monitor3Started.Stop storeStarted).2).1.client.isSome = true
        ∧ (∀ fired : List ScopeId,
            Context.Done ((monitor3Started.Stop storeStarted).2.next :: [5]) fired
              = (fired.contains (monitor3Started.Stop storeStarted).2.next
                  || Context.Done [5] fired))
        ∧ ((monitor3Started.Stop storeStarted).1.Start [5]
            (monitor3Started.Stop storeStarted).2).1.scope.Done
            ((monitor3Started.Stop storeStarted).1.Start [5]
              (monitor3Started.Stop storeStarted).2).2.cancelled
          = Context.Done [5]
              ((monitor3Started.Stop storeStarted).1.Start [5]
                (monitor3Started.Stop storeStarted).2).2.cancelled) :=
  Start_Stop_state_machine monitor3 emptyStore
    [.start Background] [.start Background, .stop] [5]
    monitor3Started storeStarted
    (monitor3Started.Stop storeStarted).1 (monitor3Started.Stop storeStarted).2
    (by decide) rfl rfl (by decide) (by decide)

/-! ## The monitor definition under the contract's operations -/

theorem checkLoop_monitor (w : World) (s : CtxStore) (retries : Int)
    (m : HTTPMonitor) :
    ∀ (fuel : Nat) (a : Int) (i : Nat) (slept : List Duration) (run : CheckRun),
      HTTPMonitor.checkLoop w s retries fuel m a i slept = .returned run →
      run.monitor =
        (if run.exit = .success ∧ m.DegradedThreshold ≤ 0
          then { m with DegradedThreshold := DEGRADED_DEFAULT_THRESHOLD } else m) := by
  intro fuel
  induction fuel with
  | zero => intro a i slept run h; simp [HTTPMonitor.checkLoop] at h
  | succ fuel ih =>
    intro a i slept run h
    rw [HTTPMonitor.checkLoop] at h
    split at h
    · split at h
      · simp only [Outcome.returned.injEq] at h
        subst h
        simp
      · split at h
        · simp at h
        · simp only [Outcome.returned.injEq] at h
          subst h
          simp
        · split at h
          · exact ih _ _ _ _ h
          · simp only [Outcome.returned.injEq] at h
            subst h
            simp
    · simp only [Outcome.returned.injEq] at h
      subst h
      simp

/-- C8, as stated, fails: `Start` on a monitor whose method is unset writes
`GET` into `HTTPMethod`, and a `Check` with a successful attempt on a monitor
whose `DegradedThreshold` is 0 writes 2000 ms into `DegradedThreshold`. -/
theorem definition_not_immutable :
    (monitor1NoMethod.Start Background emptyStore).1.definition ≠ monitor1NoMethod.definition
    ∧ (monitor1NoMethod.Start Background emptyStore).1.HTTPMethod = "GET"
    ∧ ∃ run, monitor1Started.Check storeStarted worldAlways200 4 = .returned run
        ∧ run.monitor.definition ≠ monitor1Started.definition
        ∧ monitor1Started.DegradedThreshold = 0
        ∧ run.monitor.DegradedThreshold = 2000 * Millisecond := by
  refine ⟨by decide, by decide, ?_⟩
  refine ⟨_, rfl, by decide, by decide, by decide⟩

/-- C8, amended. `ID`, `URL`, `HBInterval`, `Retries`, `RetryInterval`,
`ReqTimeout`, `MaxRedirects`, `AcceptedStatusCodes` and `IPFamily` are the same
after `Start`, `Stop`, `Check`, `SetRunning` and `SetLastHB` as before.
`HTTPMethod` is changed only by a `Start` that finds the cancel handle clear,
which replaces it by its upper-cased form, or by `GET` when that is empty.
`DegradedThreshold` is changed only by a `Check` in which an attempt succeeds
while `DegradedThreshold <= 0`, which sets it to 2000 ms. -/
theorem definition_frame (m : HTTPMonitor) (parent : Context) (s : CtxStore) (w : World)
    (fuel : Nat) (b : Bool) (hbTime : Time) :
    ((m.Start parent s).1.coreDefinition = m.coreDefinition
      ∧ (m.Start parent s).1.DegradedThreshold = m.DegradedThreshold
      ∧ (m.Start parent s).1.HTTPMethod
          = (if m.cancel ≠ none then m.HTTPMethod
             else if strings_ToUpper m.HTTPMethod = "" then "GET"
             else strings_ToUpper m.HTTPMethod))
    ∧ (m.Stop s).1.definition = m.definition
    ∧ (m.SetRunning b).definition = m.definition
    ∧ (m.SetLastHB hbTime).definition = m.definition
    ∧ ((∃ run, m.Check s w fuel = .returned run
          ∧ run.monitor.coreDefinition = m.coreDefinition
          ∧ run.monitor.HTTPMethod = m.HTTPMethod
          ∧ run.monitor.DegradedThreshold
              = (if run.exit = .success ∧ m.DegradedThreshold ≤ 0
                 then 2000 * Millisecond else m.DegradedThreshold))
        ∨ (∃ n, m.Check s w fuel = .panicked n)
        ∨ m.Check s w fuel = .outOfFuel) := by
  refine ⟨?_, ?_, rfl, rfl, ?_⟩
  · by_cases hc : m.cancel = none
    · rw [Start_of_clear m parent s hc]
      have hf := initHTTPClient_frame
        { m with ctx := some (s.next :: parent), cancel := some s.next }
      obtain ⟨h1, h2, h3, h4, h5, h6, h7, h8, h9, h10, -, -, -, -, -, h16⟩ := hf
      simp only at h1 h2 h3 h4 h5 h6 h7 h8 h9 h10 h16
      refine ⟨?_, h10, ?_⟩
      · simp only [HTTPMonitor.coreDefinition, h1, h2, h3, h4, h5, h6, h7, h8, h9]
      · simp only [h16, hc, ne_eq, not_true_eq_false, if_false]
    · rw [Start_of_set m parent s hc]
      simp [hc]
  · unfold HTTPMonitor.Stop
    split <;> rfl
  · cases hc : m.Check s w fuel with
    | returned run =>
      refine Or.inl ⟨run, rfl, ?_⟩
      rw [Check_eq] at hc
      have hmon := checkLoop_monitor w s _ _ _ _ _ _ run hc
      have hw : m.withScope.coreDefinition = m.coreDefinition
          ∧ m.withScope.HTTPMethod = m.HTTPMethod
          ∧ m.withScope.DegradedThreshold = m.DegradedThreshold := by
        unfold HTTPMonitor.withScope
        split <;> exact ⟨rfl, rfl, rfl⟩
      rw [hmon, hw.2.2]
      by_cases hcond : run.exit = .success ∧ m.DegradedThreshold ≤ 0
      · simp only [hcond, and_self, if_true]
        exact ⟨hw.1, hw.2.1, rfl⟩
      · simp only [hcond, if_false]
        exact ⟨hw.1, hw.2.1, hw.2.2⟩
    | panicked n => exact Or.inr (Or.inl ⟨n, rfl⟩)
    | outOfFuel => exact Or.inr (Or.inr rfl)

/-! ## The registry -/

/-- C6. `AddMonitor` with a monitor whose ID is already a key of the registry
leaves the registry mapping, every monitor (so the existing one and the one
passed in, their last heartbeat and running flag included), the scopes, the
launched loops and the result channel as they were, makes no `Start` or `Stop`
call, and only logs a warning; `StopMonitor` with an ID that is not a key does
the same, in every state, an empty registry included. Each half has its own
premise and neither needs the other's. -/
theorem registry_conflicts_are_noops (st : System) (m : Ptr) (monitorID : String) :
    ((st.sched.monitors.lookup (st.heap m).GetID).isSome = true →
      (st.AddMonitor m).sched.monitors = st.sched.monitors
      ∧ (st.AddMonitor m).heap = st.heap
      ∧ (st.AddMonitor m).store = st.store
      ∧ (st.AddMonitor m).loops = st.loops
      ∧ (st.AddMonitor m).calls = st.calls
      ∧ (st.AddMonitor m).sched.ResultChannel = st.sched.ResultChannel
      ∧ (st.AddMonitor m).sched.ctx = st.sched.ctx
      ∧ (st.AddMonitor m).sched.logger = st.sched.logger
          ++ [("warn", "[Scheduler] Monitor " ++ (st.heap m).ID ++ " already exists")])
    ∧ (st.sched.monitors.lookup monitorID = none →
      (st.StopMonitor monitorID).sched.monitors = st.sched.monitors
      ∧ (st.StopMonitor monitorID).heap = st.heap
      ∧ (st.StopMonitor monitorID).store = st.store
      ∧ (st.StopMonitor monitorID).loops = st.loops
      ∧ (st.StopMonitor monitorID).calls = st.calls
      ∧ (st.StopMonitor monitorID).sched.ResultChannel = st.sched.ResultChannel
      ∧ (st.StopMonitor monitorID).sched.ctx = st.sched.ctx
      ∧ (st.StopMonitor monitorID).sched.logger = st.sched.logger
          ++ [("warn", "[Scheduler] No monitor found with ID " ++ monitorID)]) := by
  constructor
  · intro hpresent
    unfold System.AddMonitor
    rw [if_pos hpresent]
    exact ⟨rfl, rfl, rfl, rfl, rfl, rfl, rfl, rfl⟩
  · intro habsent
    unfold System.StopMonitor
    rw [habsent]
    exact ⟨rfl, rfl, rfl, rfl, rfl, rfl, rfl, rfl⟩

/-- A duplicate add and a removal of an unknown ID on `system2`, and a removal
on the empty registry `systemEmpty`, where no add can be a duplicate. -/
theorem registry_conflicts_are_noops_witness :
    ((system2.AddMonitor 2).sched.monitors = system2.sched.monitors
      ∧ (system2.AddMonitor 2).heap = system2.heap
      ∧ (system2.AddMonitor 2).store = system2.store
      ∧ (system2.AddMonitor 2).loops = system2.loops
      ∧ (system2.AddMonitor 2).calls = system2.calls
      ∧ (system2.AddMonitor 2).sched.ResultChannel = system2.sched.ResultChannel
      ∧ (system2.AddMonitor 2).sched.ctx = system2.sched.ctx
      ∧ (system2.AddMonitor 2).sched.logger = system2.sched.logger
          ++ [("warn", "[Scheduler] Monitor " ++ (system2.heap 2).ID ++ " already exists")])
    ∧ ((system2.StopMonitor "test-monitor4").sched.monitors = system2.sched.monitors
      ∧ (system2.StopMonitor "test-monitor4").heap = system2.heap
      ∧ (system2.StopMonitor "test-monitor4").store = system2.store
      ∧ (system2.StopMonitor "test-monitor4").loops = system2.loops
      ∧ (system2.StopMonitor "test-monitor4").calls = system2.calls
      ∧ (system2.StopMonitor "test-monitor4").sched.ResultChannel = system2.sched.ResultChannel
      ∧ (system2.StopMonitor "test-monitor4").sched.ctx = system2.sched.ctx
      ∧ (system2.StopMonitor "test-monitor4").sched.logger = system2.sched.logger
          ++ [("warn", "[Scheduler] No monitor found with ID " ++ "test-monitor4")])
    ∧ ((systemEmpty.StopMonitor "test-monitor").sched.monitors = systemEmpty.sched.monitors
      ∧ (systemEmpty.StopMonitor "test-monitor").heap = systemEmpty.heap
      ∧ (systemEmpty.StopMonitor "test-monitor").store = systemEmpty.store
      ∧ (systemEmpty.StopMonitor "test-monitor").loops = systemEmpty.loops
      ∧ (systemEmpty.StopMonitor "test-monitor").calls = systemEmpty.calls
      ∧ (systemEmpty.StopMonitor "test-monitor").sched.ResultChannel
          = systemEmpty.sched.ResultChannel
      ∧ (systemEmpty.StopMonitor "test-monitor").sched.ctx = systemEmpty.sched.ctx
      ∧ (systemEmpty.StopMonitor "test-monitor").sched.logger = systemEmpty.sched.logger
          ++ [("warn", "[Scheduler] No monitor found with ID " ++ "test-monitor")]) :=
  ⟨(registry_conflicts_are_noops system2 2 "test-monitor4").1 (by decide),
   (registry_conflicts_are_noops system2 2 "test-monitor4").2 (by decide),
   (registry_conflicts_are_noops systemEmpty 0 "test-monitor").2 (by decide)⟩

/-! ## Shutdown -/

theorem Done_fire (c : Context) (s : CtxStore) (id : ScopeId)
    (h : c.Done s.cancelled = true) : c.Done (s.fire id).cancelled = true := by
  unfold CtxStore.fire
  split
  · exact h
  · unfold Context.Done at h ⊢
    simp only [List.any_eq_true] at h ⊢
    obtain ⟨x, hx, hm⟩ := h
    refine ⟨x, hx, ?_⟩
    have hm2 : x ∈ s.cancelled := by simpa using hm
    simpa using Or.inr hm2

theorem Done_Stop (c : Context) (m : HTTPMonitor) (s : CtxStore)
    (h : c.Done s.cancelled = true) : c.Done (m.Stop s).2.cancelled = true := by
  unfold HTTPMonitor.Stop
  split
  · exact Done_fire c s _ h
  · exact h

theorem Stop_stopped (m : HTTPMonitor) (s : CtxStore) (hwf : m.wf)
    (h : m.cancel ≠ none ∨ m.scope.Done s.cancelled = true) :
    (m.Stop s).1.wf ∧ (m.Stop s).1.cancel = none
    ∧ (m.Stop s).1.scope.Done (m.Stop s).2.cancelled = true := by
  cases hc : m.cancel with
  | none =>
    have hd : m.scope.Done s.cancelled = true := by
      rcases h with h | h
      · exact absurd hc h
      · exact h
    have hs : m.Stop s = (m, s) := by unfold HTTPMonitor.Stop; simp [hc]
    rw [hs]
    exact ⟨hwf, hc, hd⟩
  | some c =>
    obtain ⟨rest, hctx⟩ := wf_scope m c hwf hc
    rw [Stop_of_set m s c hc]
    refine ⟨by unfold HTTPMonitor.wf; simp, rfl, ?_⟩
    simp only [HTTPMonitor.scope, hctx, Option.getD_some]
    exact Done_cons_of_mem _ _ _ (mem_fire _ _)

theorem callStop_heap_self (st : System) (q : Ptr) :
    (st.callStop q).heap q = ((st.heap q).Stop st.store).1 := by
  simp [System.callStop]

theorem callStop_heap_other (st : System) (q p : Ptr) (h : p ≠ q) :
    (st.callStop q).heap p = st.heap p := by
  simp [System.callStop, Function.update, h]

theorem callStop_store (st : System) (q : Ptr) :
    (st.callStop q).store = ((st.heap q).Stop st.store).2 := rfl

theorem callStop_startedAt (st : System) (q p : Ptr) (h : st.startedAt p) :
    (st.callStop q).startedAt p := by
  obtain ⟨hwf, hs⟩ := h
  unfold System.startedAt
  by_cases hpq : p = q
  · subst hpq
    rw [callStop_heap_self, callStop_store]
    obtain ⟨h1, -, h3⟩ := Stop_stopped _ st.store hwf hs
    exact ⟨h1, Or.inr h3⟩
  · rw [callStop_heap_other st q p hpq, callStop_store]
    refine ⟨hwf, ?_⟩
    rcases hs with hs | hs
    · exact Or.inl hs
    · exact Or.inr (Done_Stop _ _ _ hs)

theorem callStop_stoppedAt (st : System) (q p : Ptr) (h : st.stoppedAt p) :
    (st.callStop q).stoppedAt p := by
  obtain ⟨hc, hd⟩ := h
  unfold System.stoppedAt
  by_cases hpq : p = q
  · subst hpq
    rw [callStop_heap_self, callStop_store]
    have hs : (st.heap p).Stop st.store = (st.heap p, st.store) := by
      unfold HTTPMonitor.Stop; simp [hc]
    rw [hs]
    exact ⟨hc, hd⟩
  · rw [callStop_heap_other st q p hpq, callStop_store]
    exact ⟨hc, Done_Stop _ _ _ hd⟩

theorem callStop_stops (st : System) (q : Ptr) (h : st.startedAt q) :
    (st.callStop q).stoppedAt q := by
  obtain ⟨hwf, hs⟩ := h
  unfold System.stoppedAt
  rw [callStop_heap_self, callStop_store]
  exact (Stop_stopped _ st.store hwf hs).2

theorem mapDelete_head (id : String) (m : Ptr) (rest : List (String × Ptr))
    (h : id ∉ rest.map (fun e => e.1)) : mapDelete id ((id, m) :: rest) = rest := by
  have hrest : rest.filter (fun e => decide (e.1 ≠ id)) = rest := by
    rw [List.filter_eq_self]
    intro e he
    have : e.1 ≠ id := fun heq => h (by rw [← heq]; exact List.mem_map_of_mem _ he)
    simpa using this
  unfold mapDelete
  rw [List.filter_cons, hrest]
  simp

/-- The second loop of `Run`, started on the whole registry: it empties the
registry, calls `Stop` on every entry, leaves every entry stopped, and leaves
stopped whatever was stopped before. -/
theorem stopAll_spec :
    ∀ (entries : List (String × Ptr)) (st : System),
      st.sched.monitors = entries →
      (entries.map (fun e => e.1)).Nodup →
      (∀ e ∈ entries, st.startedAt e.2) →
      (System.stopAll entries st).sched.monitors = []
      ∧ (∀ e ∈ entries, MonitorCall.Stop e.2 ∈ (System.stopAll entries st).calls
          ∧ (System.stopAll entries st).stoppedAt e.2)
      ∧ (∀ p, st.stoppedAt p → (System.stopAll entries st).stoppedAt p)
      ∧ (∀ c ∈ st.calls, c ∈ (System.stopAll entries st).calls) := by
  intro entries
  induction entries with
  | nil =>
    intro st hm _ _
    exact ⟨hm, by simp, fun p h => h, fun c h => h⟩
  | cons e rest ih =>
    obtain ⟨id, m⟩ := e
    intro st hm hnd hstarted
    simp only [List.map_cons, List.nodup_cons] at hnd
    have hlook : (st.sched.monitors.lookup id).isSome = true := by
      rw [hm]; simp [List.lookup]
    simp only [System.stopAll, hlook, if_true]
    have hdel : mapDelete id (st.callStop m).sched.monitors = rest := by
      show mapDelete id st.sched.monitors = rest
      rw [hm]; exact mapDelete_head id m rest hnd.1
    obtain ⟨h1, h2, h3, h4⟩ := ih
      { st.callStop m with
        sched := { (st.callStop m).sched with
          monitors := mapDelete id (st.callStop m).sched.monitors } }
      hdel hnd.2
      (fun e he => callStop_startedAt st m e.2 (hstarted e (List.mem_cons_of_mem _ he)))
    refine ⟨h1, ?_, ?_, ?_⟩
    · intro e he
      simp only [List.mem_cons] at he
      rcases he with rfl | he
      · refine ⟨h4 _ ?_, h3 _ ?_⟩
        · show MonitorCall.Stop m ∈ st.calls ++ [MonitorCall.Stop m]
          simp
        · exact callStop_stops st m (hstarted _ (List.mem_cons_self _ _))
      · exact h2 e he
    · intro p hp
      exact h3 p (callStop_stoppedAt st m p hp)
    · intro c hc
      refine h4 c ?_
      show c ∈ st.calls ++ [MonitorCall.Stop m]
      simp [hc]

/-! ### The registry invariant is what the scheduler maintains -/

theorem Start_wf (m : HTTPMonitor) (parent : Context) (s : CtxStore) (hwf : m.wf) :
    (m.Start parent s).1.wf ∧ (m.Start parent s).1.cancel ≠ none
    ∧ (m.Start parent s).2.cancelled = s.cancelled
    ∧ (m.Start parent s).1.ID = m.ID := by
  cases hc : m.cancel with
  | some c =>
    rw [Start_of_set m parent s (by simp [hc])]
    exact ⟨hwf, by simp [hc], rfl, rfl⟩
  | none =>
    rw [Start_of_clear m parent s hc]
    have hf := initHTTPClient_frame
      { m with ctx := some (s.next :: parent), cancel := some s.next }
    have hcancel := hf.2.2.2.2.2.2.2.2.2.2.2.2.2.1
    have hctx := hf.2.2.2.2.2.2.2.2.2.2.2.2.1
    have hclient := hf.2.2.2.2.2.2.2.2.2.2.2.2.2.2.1
    simp only at hcancel hctx
    refine ⟨?_, by simp [hcancel], rfl, hf.1⟩
    unfold HTTPMonitor.wf
    simp only [hcancel, hctx, hclient]
    simp

theorem callStart_heap_self (st : System) (q : Ptr) :
    (st.callStart q).heap q = ((st.heap q).Start st.sched.ctx st.store).1 := by
  simp [System.callStart]

theorem callStart_heap_other (st : System) (q p : Ptr) (h : p ≠ q) :
    (st.callStart q).heap p = st.heap p := by
  simp [System.callStart, Function.update, h]

theorem callStart_cancelled (st : System) (q : Ptr) (hwf : (st.heap q).wf) :
    (st.callStart q).store.cancelled = st.store.cancelled :=
  (Start_wf _ st.sched.ctx st.store hwf).2.2.1

theorem callStart_wf (st : System) (q p : Ptr) (hq : (st.heap q).wf) (hp : (st.heap p).wf) :
    ((st.callStart q).heap p).wf := by
  by_cases hpq : p = q
  · subst hpq
    rw [callStart_heap_self]
    exact (Start_wf _ _ _ hp).1
  · rw [callStart_heap_other st q p hpq]
    exact hp

theorem callStart_startedAt (st : System) (q p : Ptr) (hq : (st.heap q).wf)
    (h : st.startedAt p) : (st.callStart q).startedAt p := by
  obtain ⟨hwf, hs⟩ := h
  unfold System.startedAt
  rw [callStart_cancelled st q hq]
  by_cases hpq : p = q
  · subst hpq
    rw [callStart_heap_self]
    exact ⟨(Start_wf _ _ _ hwf).1, Or.inl (Start_wf _ _ _ hwf).2.1⟩
  · rw [callStart_heap_other st q p hpq]
    exact ⟨hwf, hs⟩

theorem callStart_starts (st : System) (q : Ptr) (hq : (st.heap q).wf) :
    (st.callStart q).startedAt q := by
  unfold System.startedAt
  rw [callStart_heap_self]
  exact ⟨(Start_wf _ _ _ hq).1, Or.inl (Start_wf _ _ _ hq).2.1⟩

/-- The first loop of `Run` leaves the registry as it is and every visited
monitor started. -/
theorem startAll_spec :
    ∀ (entries : List (String × Ptr)) (st : System),
      (∀ e ∈ entries, (st.heap e.2).wf) →
      (System.startAll entries st).sched = st.sched
      ∧ (∀ e ∈ entries, (System.startAll entries st).startedAt e.2)
      ∧ (∀ p, st.startedAt p → (System.startAll entries st).startedAt p) := by
  intro entries
  induction entries with
  | nil => intro st _; exact ⟨rfl, by simp, fun p h => h⟩
  | cons e rest ih =>
    obtain ⟨id, m⟩ := e
    intro st hwf
    have hm : (st.heap m).wf := hwf (id, m) (List.mem_cons_self _ _)
    obtain ⟨h1, h2, h3⟩ := ih ((st.callStart m).launchLoop m)
      (fun e he => callStart_wf st m e.2 hm (hwf e (List.mem_cons_of_mem _ he)))
    simp only [System.startAll]
    refine ⟨h1, ?_, ?_⟩
    · intro e he
      simp only [List.mem_cons] at he
      rcases he with rfl | he
      · exact h3 _ (callStart_starts st m hm)
      · exact h2 e he
    · intro p hp
      exact h3 p (callStart_startedAt st m p hm hp)

/-- After the startup part of `Run` the registry invariant holds, whenever the
registry was a map of well-formed monitors. -/
theorem runStartup_registryInv (st : System)
    (hnd : (st.sched.monitors.map (fun e => e.1)).Nodup)
    (hwf : ∀ e ∈ st.sched.monitors, (st.heap e.2).wf) :
    st.runStartup.registryInv := by
  obtain ⟨h1, h2, -⟩ := startAll_spec
    (st.log "info" "[Scheduler] Running dynamic scheduler...").sched.monitors
    (st.log "info" "[Scheduler] Running dynamic scheduler...") hwf
  have hmon : st.runStartup.sched.monitors = st.sched.monitors := by
    unfold System.runStartup
    simp only [h1]
    rfl
  unfold System.registryInv
  rw [hmon]
  exact ⟨hnd, fun e he => h2 e he⟩

/-- A cancellation by whoever owns a scope keeps the registry invariant. -/
theorem fire_registryInv (st : System) (id : ScopeId) (hinv : st.registryInv) :
    System.registryInv { st with store := st.store.fire id } := by
  obtain ⟨hnd, hs⟩ := hinv
  refine ⟨hnd, fun e he => ?_⟩
  obtain ⟨hwf, h⟩ := hs e he
  refine ⟨hwf, ?_⟩
  rcases h with h | h
  · exact Or.inl h
  · exact Or.inr (Done_fire _ _ _ h)

/-- The method `StopMonitor` keeps the registry invariant. -/
theorem StopMonitor_registryInv (st : System) (monitorID : String) (hinv : st.registryInv) :
    (st.StopMonitor monitorID).registryInv := by
  obtain ⟨hnd, hs⟩ := hinv
  unfold System.StopMonitor
  cases hl : st.sched.monitors.lookup monitorID with
  | none => exact ⟨hnd, hs⟩
  | some m =>
    refine ⟨?_, ?_⟩
    · show ((mapDelete monitorID st.sched.monitors).map (fun e => e.1)).Nodup
      exact hnd.sublist ((List.filter_sublist _).map _)
    · intro e he
      have he2 : e ∈ mapDelete monitorID st.sched.monitors := he
      have he3 : e ∈ st.sched.monitors := List.mem_of_mem_filter he2
      exact callStop_startedAt st m e.2 (hs e he3)

/-- The method `AddMonitor` keeps the registry invariant. -/
theorem AddMonitor_registryInv (st : System) (m : Ptr) (hinv : st.registryInv)
    (hwf : (st.heap m).wf) : (st.AddMonitor m).registryInv := by
  obtain ⟨hnd, hs⟩ := hinv
  unfold System.AddMonitor
  split
  · exact ⟨hnd, hs⟩
  · next habsent =>
    have hid : ((st.callStart m).heap m).GetID = (st.heap m).GetID := by
      rw [callStart_heap_self]
      exact (Start_wf _ _ _ hwf).2.2.2
    have hnone : st.sched.monitors.lookup (st.heap m).GetID = none := by
      cases hl : st.sched.monitors.lookup (st.heap m).GetID with
      | none => rfl
      | some x => simp [hl] at habsent
    have hins : mapInsert ((st.callStart m).heap m).GetID m st.sched.monitors
        = st.sched.monitors ++ [((st.heap m).GetID, m)] := by
      unfold mapInsert
      rw [hid, hnone]
      simp
    refine ⟨?_, ?_⟩
    · show ((mapInsert ((st.callStart m).heap m).GetID m st.sched.monitors).map
        (fun e => e.1)).Nodup
      rw [hins, List.map_append, List.nodup_append]
      refine ⟨hnd, by simp, ?_⟩
      intro k hk hk2
      simp only [List.map_cons, List.map_nil, List.mem_singleton] at hk2
      subst hk2
      obtain ⟨e, he, heq⟩ := List.mem_map.mp hk
      have := (List.lookup_eq_none_iff.mp hnone) e he
      simp [heq] at this
    · intro e he
      have he2 : e ∈ mapInsert ((st.callStart m).heap m).GetID m st.sched.monitors := he
      rw [hins, List.mem_append] at he2
      rcases he2 with he2 | he2
      · exact callStart_startedAt st m e.2 hwf (hs e he2)
      · simp only [List.mem_singleton] at he2
        subst he2
        exact callStart_starts st m hwf

/-! ### Everything the tasks do keeps the invariant -/

theorem inv_congr (st st1 : System) (hh : st1.heap = st.heap) (hs : st1.store = st.store)
    (hc : st1.calls = st.calls) (hm : st1.sched.monitors = st.sched.monitors)
    (h : st.inv) : st1.inv := by
  unfold System.inv System.registryInv System.startedAt System.stoppedAt at h ⊢
  rw [hh, hs, hc, hm]
  exact h

theorem setHeap_self (st : System) (p : Ptr) (m : HTTPMonitor) : (st.setHeap p m).heap p = m := by
  simp [System.setHeap]

theorem setHeap_other (st : System) (p q : Ptr) (m : HTTPMonitor) (h : q ≠ p) :
    (st.setHeap p m).heap q = st.heap q := by
  simp [System.setHeap, Function.update, h]

/-- Writing a monitor back with the same handle and scope keeps the invariant. -/
theorem inv_setHeap (st : System) (p : Ptr) (m : HTTPMonitor)
    (hc : m.cancel = (st.heap p).cancel) (hsc : m.scope = (st.heap p).scope)
    (hw : (st.heap p).wf → m.wf) (h : st.inv) : (st.setHeap p m).inv := by
  obtain ⟨⟨hnd, hreg⟩, hwf, hj⟩ := h
  have key : ∀ q, ((st.setHeap p m).heap q).wf
      ∧ ((st.setHeap p m).heap q).cancel = (st.heap q).cancel
      ∧ ((st.setHeap p m).heap q).scope = (st.heap q).scope := by
    intro q
    by_cases hq : q = p
    · subst hq
      rw [setHeap_self]
      exact ⟨hw (hwf q), hc, hsc⟩
    · rw [setHeap_other st p q m hq]
      exact ⟨hwf q, rfl, rfl⟩
  refine ⟨⟨hnd, ?_⟩, fun q => (key q).1, ?_⟩
  · intro e he
    obtain ⟨-, h2⟩ := hreg e he
    unfold System.startedAt
    rw [(key e.2).2.1, (key e.2).2.2]
    exact ⟨(key e.2).1, h2⟩
  · intro q hq
    rcases hj q hq with h1 | ⟨h1, h2, h3⟩
    · exact Or.inl h1
    · refine Or.inr ⟨h1, ?_⟩
      unfold System.stoppedAt
      rw [(key q).2.1, (key q).2.2]
      exact ⟨h2, h3⟩

theorem withScope_lifecycle (m : HTTPMonitor) :
    m.withScope.cancel = m.cancel ∧ m.withScope.scope = m.scope
    ∧ (m.wf → m.withScope.wf) := by
  unfold HTTPMonitor.withScope
  split
  · next hctx =>
    refine ⟨rfl, by simp [HTTPMonitor.scope, hctx], ?_⟩
    intro hwf
    unfold HTTPMonitor.wf at hwf ⊢
    cases hc : m.cancel with
    | none => simp
    | some c => simp [hc, hctx] at hwf
  · exact ⟨rfl, rfl, fun h => h⟩

theorem Check_monitor_lifecycle (m : HTTPMonitor) (s : CtxStore) (w : World) (fuel : Nat)
    (run : CheckRun) (h : m.Check s w fuel = .returned run) :
    run.monitor.cancel = m.cancel ∧ run.monitor.scope = m.scope
    ∧ (m.wf → run.monitor.wf) := by
  rw [Check_eq] at h
  have hmon := checkLoop_monitor w s _ _ _ _ _ _ run h
  obtain ⟨h1, h2, h3⟩ := withScope_lifecycle m
  rw [hmon]
  split
  · exact ⟨h1, h2, h3⟩
  · exact ⟨h1, h2, h3⟩

theorem inv_performCheck (st : System) (m : Ptr) (w : World) (fuel : Nat) (h : st.inv) :
    (st.performCheck m w fuel).inv := by
  have h1 : (st.setHeap m ((st.heap m).SetRunning true)).inv :=
    inv_setHeap st m _ rfl rfl (fun hw => hw) h
  unfold System.performCheck
  simp only
  split
  · next run hrun =>
    obtain ⟨hc, hs, hw⟩ := Check_monitor_lifecycle _ _ _ _ _ hrun
    have h2 := inv_setHeap _ m (run.monitor.SetLastHB run.result.EndTime) hc hs hw h1
    split
    · refine inv_setHeap _ m _ rfl rfl (fun hw => hw) ?_
      exact inv_congr _ _ rfl rfl rfl rfl h2
    · exact h2
  · exact inv_setHeap _ m _ rfl rfl (fun hw => hw) h1
  · exact h1

theorem lookup_unique (l : List (String × Ptr)) (k : String) (v x : Ptr)
    (hnd : (l.map (fun e => e.1)).Nodup) (hl : l.lookup k = some v) (hx : (k, x) ∈ l) :
    x = v := by
  induction l with
  | nil => simp at hx
  | cons e rest ih =>
    obtain ⟨k1, v1⟩ := e
    simp only [List.map_cons, List.nodup_cons] at hnd
    by_cases hk : k = k1
    · subst hk
      simp only [List.lookup_cons_self, Option.some.injEq] at hl
      simp only [List.mem_cons, Prod.mk.injEq, true_and] at hx
      rcases hx with hx | hx
      · rw [hx, hl]
      · exact absurd (List.mem_map_of_mem (fun e => e.1) hx) hnd.1
    · have hb : (k == k1) = false := by simpa using hk
      simp only [List.lookup_cons, hb] at hl
      simp only [List.mem_cons, Prod.mk.injEq, hk, false_and, false_or] at hx
      exact ih hnd.2 hl hx

theorem Stop_wf (m : HTTPMonitor) (s : CtxStore) (hwf : m.wf) : (m.Stop s).1.wf := by
  unfold HTTPMonitor.Stop
  split
  · unfold HTTPMonitor.wf; simp
  · exact hwf

theorem inv_StopMonitor (st : System) (monitorID : String) (h : st.inv) :
    (st.StopMonitor monitorID).inv := by
  have hreg2 := StopMonitor_registryInv st monitorID h.1
  obtain ⟨⟨hnd, hreg⟩, hwf, hj⟩ := h
  cases hl : st.sched.monitors.lookup monitorID with
  | none =>
    have : st.StopMonitor monitorID
        = st.log "warn" ("[Scheduler] No monitor found with ID " ++ monitorID) := by
      unfold System.StopMonitor; rw [hl]
    rw [this]
    exact inv_congr st _ rfl rfl rfl rfl ⟨⟨hnd, hreg⟩, hwf, hj⟩
  | some m =>
    have hheap : (st.StopMonitor monitorID).heap = (st.callStop m).heap := by
      unfold System.StopMonitor; rw [hl]; rfl
    have hstore : (st.StopMonitor monitorID).store = (st.callStop m).store := by
      unfold System.StopMonitor; rw [hl]; rfl
    have hcalls : (st.StopMonitor monitorID).calls = st.calls ++ [MonitorCall.Stop m] := by
      unfold System.StopMonitor; rw [hl]; rfl
    have hmon : (st.StopMonitor monitorID).sched.monitors
        = mapDelete monitorID st.sched.monitors := by
      unfold System.StopMonitor; rw [hl]; rfl
    have hstopped : ∀ q, (st.callStop m).stoppedAt q → (st.StopMonitor monitorID).stoppedAt q := by
      intro q hq
      unfold System.stoppedAt at hq ⊢
      rw [hheap, hstore]
      exact hq
    refine ⟨hreg2, ?_, ?_⟩
    · intro q
      rw [hheap]
      by_cases hq : q = m
      · subst hq
        rw [callStop_heap_self]
        exact Stop_wf _ _ (hwf q)
      · rw [callStop_heap_other st m q hq]
        exact hwf q
    · intro q hq
      rw [hcalls] at hq ⊢
      rw [hmon]
      have hq2 : MonitorCall.Start q ∈ st.calls := by simpa using hq
      rcases hj q hq2 with ⟨e, he, heq⟩ | ⟨h1, h2⟩
      · by_cases hk : e.1 = monitorID
        · have hem : e.2 = m := by
            apply lookup_unique st.sched.monitors monitorID m e.2 hnd hl
            rw [← hk]
            exact he
          refine Or.inr ⟨by simp [← heq, hem], ?_⟩
          rw [← heq, hem]
          exact hstopped m (callStop_stops st m (hem ▸ hreg e he))
        · refine Or.inl ⟨e, ?_, heq⟩
          unfold mapDelete
          simp [he, hk]
      · exact Or.inr ⟨by simp [h1], hstopped q (callStop_stoppedAt st m q h2)⟩

theorem inv_AddMonitor (st : System) (m : Ptr) (h : st.inv) : (st.AddMonitor m).inv := by
  have hreg2 := AddMonitor_registryInv st m h.1 (h.2.1 m)
  obtain ⟨⟨hnd, hreg⟩, hwf, hj⟩ := h
  by_cases hp : (st.sched.monitors.lookup (st.heap m).GetID).isSome = true
  · have : st.AddMonitor m
        = st.log "warn" ("[Scheduler] Monitor " ++ (st.heap m).GetID ++ " already exists") := by
      unfold System.AddMonitor; rw [if_pos hp]
    rw [this]
    exact inv_congr st _ rfl rfl rfl rfl ⟨⟨hnd, hreg⟩, hwf, hj⟩
  · have hheap : (st.AddMonitor m).heap = (st.callStart m).heap := by
      unfold System.AddMonitor; rw [if_neg hp]; rfl
    have hstore : (st.AddMonitor m).store = (st.callStart m).store := by
      unfold System.AddMonitor; rw [if_neg hp]; rfl
    have hcalls : (st.AddMonitor m).calls = st.calls ++ [MonitorCall.Start m] := by
      unfold System.AddMonitor; rw [if_neg hp]; rfl
    have hmon : (st.AddMonitor m).sched.monitors
        = mapInsert ((st.callStart m).heap m).GetID m st.sched.monitors := by
      unfold System.AddMonitor; rw [if_neg hp]; rfl
    have hid : ((st.callStart m).heap m).GetID = (st.heap m).GetID := by
      rw [callStart_heap_self]
      exact (Start_wf _ _ _ (hwf m)).2.2.2
    have hnone : st.sched.monitors.lookup (st.heap m).GetID = none := by
      cases hl : st.sched.monitors.lookup (st.heap m).GetID with
      | none => rfl
      | some x => simp [hl] at hp
    have hins : mapInsert ((st.callStart m).heap m).GetID m st.sched.monitors
        = st.sched.monitors ++ [((st.heap m).GetID, m)] := by
      unfold mapInsert
      rw [hid, hnone]
      simp
    refine ⟨hreg2, ?_, ?_⟩
    · intro q
      rw [hheap]
      exact callStart_wf st m q (hwf m) (hwf q)
    · intro q hq
      rw [hcalls] at hq ⊢
      rw [hmon, hins]
      by_cases hqm : q = m
      · subst hqm
        exact Or.inl ⟨((st.heap q).GetID, q), by simp, rfl⟩
      · have hq2 : MonitorCall.Start q ∈ st.calls := by simpa [hqm] using hq
        rcases hj q hq2 with ⟨e, he, heq⟩ | ⟨h1, h2, h3⟩
        · exact Or.inl ⟨e, by simp [he], heq⟩
        · refine Or.inr ⟨by simp [h1], ?_⟩
          unfold System.stoppedAt
          rw [hheap, hstore, callStart_heap_other st m q hqm, callStart_cancelled st m (hwf m)]
          exact ⟨h2, h3⟩

theorem inv_cancel (st : System) (id : ScopeId) (h : st.inv) :
    System.inv { st with store := st.store.fire id } := by
  have hreg2 := fire_registryInv st id h.1
  obtain ⟨-, hwf, hj⟩ := h
  refine ⟨hreg2, hwf, ?_⟩
  intro q hq
  rcases hj q hq with h1 | ⟨h1, h2, h3⟩
  · exact Or.inl h1
  · exact Or.inr ⟨h1, h2, Done_fire _ _ _ h3⟩

theorem inv_apply (st : System) (e : SysEvent) (h : st.inv) : (st.apply e).inv := by
  cases e with
  | addMonitor m => exact inv_AddMonitor st m h
  | stopMonitor monitorID => exact inv_StopMonitor st monitorID h
  | cancel id => exact inv_cancel st id h
  | performCheck m w fuel => exact inv_performCheck st m w fuel h
  | receive => exact inv_congr st _ rfl rfl rfl rfl h

theorem inv_applyAll (events : List SysEvent) :
    ∀ st : System, st.inv → (System.applyAll events st).inv := by
  induction events with
  | nil => intro st h; exact h
  | cons e rest ih => intro st h; exact ih _ (inv_apply st e h)

/-- More about the first loop of `Run`: which calls it adds, and that it
leaves alone the monitors it does not visit. -/
theorem startAll_frame :
    ∀ (entries : List (String × Ptr)) (st : System),
      (∀ p, (st.heap p).wf) →
      (∀ p, ((System.startAll entries st).heap p).wf)
      ∧ (∀ c ∈ st.calls, c ∈ (System.startAll entries st).calls)
      ∧ (∀ e ∈ entries, MonitorCall.Start e.2 ∈ (System.startAll entries st).calls)
      ∧ (∀ p, MonitorCall.Start p ∈ (System.startAll entries st).calls →
          MonitorCall.Start p ∈ st.calls ∨ ∃ e ∈ entries, e.2 = p)
      ∧ (∀ p, (∀ e ∈ entries, e.2 ≠ p) → st.stoppedAt p →
          (System.startAll entries st).stoppedAt p) := by
  intro entries
  induction entries with
  | nil =>
    intro st hwf
    exact ⟨hwf, fun c h => h, by simp, fun p h => Or.inl h, fun p _ h => h⟩
  | cons e rest ih =>
    obtain ⟨id, m⟩ := e
    intro st hwf
    obtain ⟨h1, h2, h3, h4, h5⟩ := ih ((st.callStart m).launchLoop m)
      (fun p => callStart_wf st m p (hwf m) (hwf p))
    have hcalls : ((st.callStart m).launchLoop m).calls = st.calls ++ [MonitorCall.Start m] := rfl
    simp only [System.startAll]
    refine ⟨h1, ?_, ?_, ?_, ?_⟩
    · intro c hc
      exact h2 c (by rw [hcalls]; simp [hc])
    · intro e he
      simp only [List.mem_cons] at he
      rcases he with rfl | he
      · exact h2 _ (by rw [hcalls]; simp)
      · exact h3 e he
    · intro p hp
      rcases h4 p hp with h | ⟨e, he, heq⟩
      · rw [hcalls] at h
        simp only [List.mem_append, List.mem_singleton, MonitorCall.Start.injEq] at h
        rcases h with h | h
        · exact Or.inl h
        · exact Or.inr ⟨(id, m), List.mem_cons_self _ _, h.symm⟩
      · exact Or.inr ⟨e, List.mem_cons_of_mem _ he, heq⟩
    · intro p hp hs
      refine h5 p (fun e he => hp e (List.mem_cons_of_mem _ he)) ?_
      have hpm : p ≠ m := fun h => hp (id, m) (List.mem_cons_self _ _) h.symm
      unfold System.stoppedAt at hs ⊢
      show ((st.callStart m).heap p).cancel = none
        ∧ ((st.callStart m).heap p).scope.Done (st.callStart m).store.cancelled = true
      rw [callStart_heap_other st m p hpm, callStart_cancelled st m (hwf m)]
      exact hs

/-- The startup part of `Run` establishes the invariant. -/
theorem runStartup_inv (st : System) (h : st.ready) : st.runStartup.inv := by
  obtain ⟨hnd, hwf, hj⟩ := h
  have hreg := runStartup_registryInv st hnd (fun e _ => hwf e.2)
  obtain ⟨h0, -, -⟩ := startAll_spec
    (st.log "info" "[Scheduler] Running dynamic scheduler...").sched.monitors
    (st.log "info" "[Scheduler] Running dynamic scheduler...") (fun e _ => hwf e.2)
  obtain ⟨h1, h2, -, h4, h5⟩ := startAll_frame
    (st.log "info" "[Scheduler] Running dynamic scheduler...").sched.monitors
    (st.log "info" "[Scheduler] Running dynamic scheduler...") hwf
  have hmon : st.runStartup.sched.monitors = st.sched.monitors := by
    unfold System.runStartup
    simp only [h0]
    rfl
  refine ⟨hreg, h1, ?_⟩
  intro p hp
  rw [hmon]
  by_cases hex : ∃ e ∈ st.sched.monitors, e.2 = p
  · exact Or.inl hex
  · rcases h4 p hp with h | h
    · rcases hj p h with h6 | ⟨h6, h7⟩
      · exact absurd h6 hex
      · refine Or.inr ⟨h2 _ h6, h5 p ?_ h7⟩
        intro e he heq
        exact hex ⟨e, he, heq⟩
    · exact absurd h hex

/-- The calls made at startup are still on record after any events. -/
theorem calls_applyAll (events : List SysEvent) :
    ∀ (st : System) (c : MonitorCall), c ∈ st.calls → c ∈ (System.applyAll events st).calls := by
  induction events with
  | nil => intro st c h; exact h
  | cons e rest ih =>
    intro st c h
    apply ih
    cases e with
    | addMonitor m =>
      show c ∈ (st.AddMonitor m).calls
      unfold System.AddMonitor
      split
      · exact h
      · show c ∈ st.calls ++ [MonitorCall.Start m]
        simp [h]
    | stopMonitor monitorID =>
      show c ∈ (st.StopMonitor monitorID).calls
      unfold System.StopMonitor
      split
      · exact h
      · show c ∈ st.calls ++ [MonitorCall.Stop _]
        simp [h]
    | cancel id => exact h
    | performCheck m w fuel =>
      show c ∈ (st.performCheck m w fuel).calls
      unfold System.performCheck
      simp only
      split
      · split <;> exact h
      · exact h
      · exact h
    | receive => exact h

theorem mapInsert_keys (key : String) (value : Ptr) (m : List (String × Ptr))
    (h : (m.map (fun e => e.1)).Nodup) : ((mapInsert key value m).map (fun e => e.1)).Nodup := by
  unfold mapInsert
  split
  · have hk : (m.map (fun e => if e.1 = key then (key, value) else e)).map (fun e => e.1)
        = m.map (fun e => e.1) := by
      rw [List.map_map]
      apply List.map_congr_left
      intro e _
      simp only [Function.comp]
      split
      · next h => exact h.symm
      · rfl
    rw [hk]
    exact h
  · next habsent =>
    have hnone : m.lookup key = none := by
      cases hl : m.lookup key with
      | none => rfl
      | some x => simp [hl] at habsent
    rw [List.map_append, List.nodup_append]
    refine ⟨h, by simp, ?_⟩
    intro k hk hk2
    simp only [List.map_cons, List.map_nil, List.mem_singleton] at hk2
    subst hk2
    obtain ⟨e, he, heq⟩ := List.mem_map.mp hk
    have := (List.lookup_eq_none_iff.mp hnone) e he
    simp [heq] at this

/-- The registry built by `NewScheduler` is a map: its keys are distinct. -/
theorem NewScheduler_keys (ctx : Context) (ms : List Ptr) (heap : Ptr → HTTPMonitor) :
    ((NewScheduler ctx ms heap).monitors.map (fun e => e.1)).Nodup := by
  unfold NewScheduler
  simp only
  have : ∀ (l : List Ptr) (acc : List (String × Ptr)), (acc.map (fun e => e.1)).Nodup →
      ((l.foldl (fun m mon => mapInsert (heap mon).GetID mon m) acc).map (fun e => e.1)).Nodup := by
    intro l
    induction l with
    | nil => intro acc h; exact h
    | cons x rest ih => intro acc h; exact ih _ (mapInsert_keys _ _ _ h)
  exact this ms [] (by simp)

/-- C9. Take a scheduler whose registry is a map of well-formed monitors, and
let other tasks add and remove monitors, run checks, receive results and
cancel scopes while `Run` is blocked. If the root scope is cancelled by then,
`Run` returns, and at that point the registry is empty, `ListMonitors` returns
the empty list, and `Stop` has been called on every monitor that was in the
registry when `Run` was called, that was in it when the root scope fired, or
that the scheduler ever started: each has its cancel handle clear and its
scope cancelled. -/
theorem Run_drains_registry (st : System) (events : List SysEvent)
    (hready : st.ready)
    (hroot : (System.applyAll events st.runStartup).sched.ctx.Done
      (System.applyAll events st.runStartup).store.cancelled = true) :
    ∃ st1, st.Run (System.applyAll events) = some st1
      ∧ st1.sched.monitors = []
      ∧ st1.ListMonitors = []
      ∧ (∀ e ∈ st.sched.monitors,
          MonitorCall.Stop e.2 ∈ st1.calls ∧ (st1.heap e.2).cancel = none
          ∧ (st1.heap e.2).scope.Done st1.store.cancelled = true)
      ∧ (∀ e ∈ (System.applyAll events st.runStartup).sched.monitors,
          MonitorCall.Stop e.2 ∈ st1.calls ∧ (st1.heap e.2).cancel = none
          ∧ (st1.heap e.2).scope.Done st1.store.cancelled = true)
      ∧ (∀ p, MonitorCall.Start p ∈ (System.applyAll events st.runStartup).calls →
          MonitorCall.Stop p ∈ st1.calls ∧ (st1.heap p).cancel = none
          ∧ (st1.heap p).scope.Done st1.store.cancelled = true) := by
  have hinv := inv_applyAll events _ (runStartup_inv st hready)
  obtain ⟨⟨hnd, hstarted⟩, -, hj⟩ := hinv
  obtain ⟨h1, h2, h3, h4⟩ := stopAll_spec (System.applyAll events st.runStartup).sched.monitors
    ((System.applyAll events st.runStartup).log "warn"
      "[Scheduler] Context canceled, stopping all monitors...")
    rfl hnd hstarted
  have hall : ∀ p, MonitorCall.Start p ∈ (System.applyAll events st.runStartup).calls →
      MonitorCall.Stop p ∈ (System.applyAll events st.runStartup).runShutdown.calls
      ∧ ((System.applyAll events st.runStartup).runShutdown.heap p).cancel = none
      ∧ ((System.applyAll events st.runStartup).runShutdown.heap p).scope.Done
          (System.applyAll events st.runStartup).runShutdown.store.cancelled = true := by
    intro p hp
    rcases hj p hp with ⟨e, he, heq⟩ | ⟨h5, h6⟩
    · rw [← heq]
      exact ⟨(h2 e he).1, (h2 e he).2.1, (h2 e he).2.2⟩
    · exact ⟨h4 _ h5, (h3 p h6).1, (h3 p h6).2⟩
  refine ⟨(System.applyAll events st.runStartup).runShutdown, ?_, h1, ?_, ?_, ?_, hall⟩
  · unfold System.Run
    simp only [hroot, if_true]
  · unfold System.ListMonitors
    rw [show (System.applyAll events st.runStartup).runShutdown.sched.monitors = [] from h1]
    rfl
  · intro e he
    apply hall
    apply calls_applyAll
    exact (startAll_frame
      (st.log "info" "[Scheduler] Running dynamic scheduler...").sched.monitors
      (st.log "info" "[Scheduler] Running dynamic scheduler...") hready.2.1).2.2.1 e he
  · intro e he
    exact ⟨(h2 e he).1, (h2 e he).2.1, (h2 e he).2.2⟩

/-- The shutdown of `system0` after the events of `eventsUntilCancel`. -/
theorem Run_drains_registry_witness :
    ∃ st1, system0.Run (System.applyAll eventsUntilCancel) = some st1
      ∧ st1.sched.monitors = []
      ∧ st1.ListMonitors = []
      ∧ (MonitorCall.Stop 0 ∈ st1.calls ∧ (st1.heap 0).cancel = none
          ∧ (st1.heap 0).scope.Done st1.store.cancelled = true)
      ∧ (MonitorCall.Stop 1 ∈ st1.calls ∧ (st1.heap 1).cancel = none
          ∧ (st1.heap 1).scope.Done st1.store.cancelled = true) :=
  let ⟨st1, h1, h2, h3, h4, _, _⟩ := Run_drains_registry system0 eventsUntilCancel
    ⟨by decide, fun p => by unfold system0; dsimp only; split <;> decide, by simp [system0]⟩
    (by decide)
  ⟨st1, h1, h2, h3, h4 ("test-monitor", 0) (by decide), h4 ("test-monitor3", 1) (by decide)⟩

/-! ## The per-monitor loop and its check tasks -/

/-- C5, the interleaving the code allows: after the initial check, two ticks
served before the first spawned task has set the busy flag start two tasks,
and both are inside `Check` at the same time. -/
theorem runMonitorLoop_overlap :
    (LoopSystem.run (overlapSchedule.take 6) (LoopSystem.launch monitor3Started)).m.IsRunning
      = false
    ∧ (LoopSystem.run (overlapSchedule.take 7) (LoopSystem.launch monitor3Started)).spawned
      = [.entry, .entry]
    ∧ (LoopSystem.run overlapSchedule (LoopSystem.launch monitor3Started)).spawned
      = [.checking, .checking]
    ∧ (LoopSystem.run overlapSchedule (LoopSystem.launch monitor3Started)).inFlight = 2 := by
  decide

/-- A tick served while the busy flag is set starts no check. -/
theorem tick_while_busy (st : LoopSystem) (h : st.m.IsRunning = true) :
    st.step .tick = st := by
  unfold LoopSystem.step
  cases hl : st.loop <;> simp [h]

end Statuz
